import Mathlib

/-!
Verification of the external billing synchronization engine
(`app/services/pennylane_service.py`): a shallow embedding of the
`PennylaneClient` HTTP retry logic, the cursor-pagination iterator
`fetch_all_pages`, the per-entity sync services (`sync_customers`,
`sync_invoices`, `sync_quotes`, `sync_subscriptions`) and the
orchestrator `sync_all`, together with theorems settling the spec's
claims about them.

Modelling conventions:
* JSON scalar values are `Option String` (`none` = key absent or null);
  Python string truthiness (`""` falsy) is `optTruthy`.
* Timestamps (`func.now()`) are a `Nat` parameter of each run.
* Date / datetime / decimal parsing (`datetime.strptime`,
  `datetime.fromisoformat`, `Decimal`) and the Python `repr` of a payload
  are abstracted as parameters in `ParseEnv`: no claim depends on their
  behaviour, only on their determinism.
* Network I/O is a pure oracle: the HTTP layer receives the wire events
  (`WireEvent`) attempt by attempt, the pagination layer receives the
  successive page envelopes, and the sync layer receives, per endpoint,
  the records the iterator yields plus an optional client error raised
  after them.
-/

namespace PennylaneSpec

/-! ## HTTP client retry logic (`PennylaneClient._request`, lines 172-268) -/

/-- Retry configuration constants of `PennylaneClient` (source lines 121-124). -/
def MAX_RETRIES : Nat := 3

def RETRY_DELAY_SECONDS : Nat := 1

def RETRY_BACKOFF_MULTIPLIER : Nat := 2

/-- One observable wire event for one HTTP attempt: either a response with a
status code and an optional integer `Retry-After` header, or a transport
timeout (`httpx.TimeoutException`). -/
inductive WireEvent where
  | status (code : Nat) (retryAfter : Option Nat)
  | timeout
deriving DecidableEq

/-- The classified outcome of `_request`: a parsed 200 body, or one of the
exception classes `PennylaneAuthError`, `PennylaneRateLimitError`,
`PennylaneAPIError` (the latter with `none` status for the exhausted-timeout
message at line 265). -/
inductive ReqOutcome where
  | ok
  | authError (statusCode : Nat)
  | rateLimitError (retryAfter : Option Nat)
  | apiError (statusCode : Option Nat)
deriving DecidableEq

/-- Trace of one `_request` call: its outcome, how many HTTP attempts were
issued, and the recorded backoff waits (chronological). -/
structure ReqTrace where
  outcome : ReqOutcome
  attempts : Nat
  waits : List Nat
deriving DecidableEq

/-- `RETRY_DELAY_SECONDS * (RETRY_BACKOFF_MULTIPLIER ** retry_count)`
(source lines 225, 243, 259). -/
def backoffWait (retryCount : Nat) : Nat :=
  RETRY_DELAY_SECONDS * RETRY_BACKOFF_MULTIPLIER ^ retryCount

/-- The wait chosen for a 429: `retry_after_seconds or (delay * mult ** n)`
(source line 224).  Python `or` falls through on a falsy left operand, so a
`Retry-After` of 0 selects the exponential wait. -/
def wait429 (retryAfter : Option Nat) (retryCount : Nat) : Nat :=
  match retryAfter with
  | some n => if n = 0 then backoffWait retryCount else n
  | none => backoffWait retryCount

/-- Prepend one more issued attempt and its recorded wait to a trace. -/
def withRetry (t : ReqTrace) (w : Nat) : ReqTrace :=
  { t with attempts := t.attempts + 1, waits := w :: t.waits }

/-- Shallow embedding of `PennylaneClient._request` (lines 196-268).
`server n` is the wire event answering the attempt with
`retry_count = n`. The branch order mirrors the source: 200, then 401/403,
then 429 (header-aware retry), then 503 (backoff retry), then the generic
raise; the timeout handler retries with the same backoff. -/
def requestAux (server : Nat → WireEvent) (retryCount : Nat) : ReqTrace :=
  match server retryCount with
  | .timeout =>
      if _h : retryCount < MAX_RETRIES then
        withRetry (requestAux server (retryCount + 1)) (backoffWait retryCount)
      else { outcome := .apiError none, attempts := 1, waits := [] }
  | .status code retryAfter =>
      if code = 200 then { outcome := .ok, attempts := 1, waits := [] }
      else if code = 401 ∨ code = 403 then
        { outcome := .authError code, attempts := 1, waits := [] }
      else if code = 429 then
        if _h : retryCount < MAX_RETRIES then
          withRetry (requestAux server (retryCount + 1)) (wait429 retryAfter retryCount)
        else { outcome := .rateLimitError retryAfter, attempts := 1, waits := [] }
      else if code = 503 then
        if _h : retryCount < MAX_RETRIES then
          withRetry (requestAux server (retryCount + 1)) (backoffWait retryCount)
        else { outcome := .apiError (some code), attempts := 1, waits := [] }
      else { outcome := .apiError (some code), attempts := 1, waits := [] }
termination_by MAX_RETRIES - retryCount
decreasing_by all_goals (simp only [MAX_RETRIES] at *; omega)

/-- A `_request` call as issued by the API methods (initial `retry_count = 0`). -/
def request (server : Nat → WireEvent) : ReqTrace :=
  requestAux server 0

/-! ## Cursor pagination (`PennylaneClient.fetch_all_pages`, lines 425-488) -/

/-- The response envelope `{items, has_more, next_cursor}` of one page
(source lines 437, 467, 478-479; absent keys default to `[]` / `False` /
`None` via `.get`). -/
structure Page where
  items : List String
  hasMore : Bool
  nextCursor : Option String
deriving DecidableEq, Inhabited

/-- `per_page = min(per_page, 100)` (source line 447). -/
def perPageParam (perPage : Nat) : Nat := min perPage 100

/-- Python truthiness of the `next_cursor` value used at line 481
(`if has_more and next_cursor:`): present and non-empty. -/
def cursorTruthy : Option String → Bool
  | some s => !s.isEmpty
  | none => false

/-- The condition under which the loop at lines 451-488 requests another
page: `has_more and next_cursor` (line 481). -/
def pageContinue (p : Page) : Bool := p.hasMore && cursorTruthy p.nextCursor

/-- The code's stop condition for the page just fetched: empty `items`
(line 469) or not (`has_more and next_cursor`) (lines 481-485). -/
def codeStopPage (p : Page) : Bool := p.items.isEmpty || !pageContinue p

/-- Stop condition as worded by the spec: "Iteration stops when a page
returns no items, or when `has_more` is false — whichever comes first."
Stated for comparison with `codeStopPage`. -/
def specStopPage (p : Page) : Bool := p.items.isEmpty || !p.hasMore

/-- Shallow embedding of the `fetch_all_pages` loop. `pages` is the sequence
of envelopes the server would return to the 1st, 2nd, ... page request.
Returns the yielded items and the number of page fetches performed, or
`none` in the (physically impossible) case that the oracle runs out of
responses while the loop would fetch again. -/
def fetchAllPages : List Page → Option (List String × Nat)
  | [] => none
  | p :: rest =>
      if p.items.isEmpty then some ([], 1)
      else if pageContinue p then
        match fetchAllPages rest with
        | none => none
        | some (its, n) => some (p.items ++ its, n + 1)
      else some (p.items, 1)

/-! ## Claims about the HTTP retry logic (C5, C6, C7, C10) -/

lemma requestAux_attempts_pos (server : Nat → WireEvent) (rc : Nat) :
    1 ≤ (requestAux server rc).attempts := by
  rw [requestAux]
  split
  · split_ifs <;> simp [withRetry]
  · split_ifs <;> simp [withRetry]

lemma requestAux_attempts_le (server : Nat → WireEvent) :
    ∀ k rc, 3 - rc ≤ k → (requestAux server rc).attempts ≤ (3 - rc) + 1 := by
  intro k
  induction k with
  | zero =>
      intro rc h
      have hrc : ¬ rc < MAX_RETRIES := by simp only [MAX_RETRIES]; omega
      rw [requestAux]
      split
      · simp [hrc]
      · split_ifs <;> simp_all [withRetry]
  | succ k ih =>
      intro rc h
      rw [requestAux]
      split
      · split_ifs with hlt
        · have hb := ih (rc + 1) (by simp only [MAX_RETRIES] at hlt; omega)
          have hlt' : rc < 3 := by simpa [MAX_RETRIES] using hlt
          simp only [withRetry]
          omega
        · simp
      · split_ifs with h1 h2 h3 hlt h4 hlt <;>
          first
            | simp
            | (have hb := ih (rc + 1) (by simp only [MAX_RETRIES] at hlt; omega)
               have hlt' : rc < 3 := by simpa [MAX_RETRIES] using hlt
               simp only [withRetry]
               omega)

/-- C10: bounded shared retry budget — every `_request` call issues at least
one and at most `MAX_RETRIES + 1 = 4` HTTP attempts, whatever mix of 429,
503 and timeout events the wire produces; the recursion always terminates
(the embedding is a total function). -/
theorem c10_retry_budget_bound (server : Nat → WireEvent) :
    1 ≤ (request server).attempts ∧ (request server).attempts ≤ MAX_RETRIES + 1 := by
  refine ⟨requestAux_attempts_pos server 0, ?_⟩
  have h := requestAux_attempts_le server 3 0 (by omega)
  simpa [request, MAX_RETRIES] using h

/-- C7: auth failures are never retried — a single 401 or 403 response makes
`_request` raise `PennylaneAuthError` immediately, with exactly one HTTP
attempt issued. -/
theorem c7_auth_never_retried (server : Nat → WireEvent) (ra : Option Nat) (code : Nat)
    (h1 : code = 401 ∨ code = 403) (h2 : server 0 = .status code ra) :
    (request server).outcome = .authError code ∧ (request server).attempts = 1 := by
  unfold request requestAux
  rw [h2]
  rcases h1 with h | h <;> subst h <;> simp

def srv401 : Nat → WireEvent := fun _ => .status 401 none

theorem c7_auth_never_retried_witness :
    (request srv401).outcome = .authError 401 ∧ (request srv401).attempts = 1 :=
  c7_auth_never_retried srv401 none 401 (Or.inl rfl) rfl

/-- C6: transient-failure retry cap — 503 responses and timeouts are retried
with the exponential backoff waits `1, 2, 4` up to `MAX_RETRIES = 3`
retries; four consecutive 503s (or timeouts) exhaust the budget and raise
`PennylaneAPIError`, while two 503s followed by a 200 succeed after three
attempts. -/
theorem c6_transient_retry_cap :
    (∀ (server : Nat → WireEvent) (ra : Nat → Option Nat),
      (∀ i, i ≤ MAX_RETRIES → server i = .status 503 (ra i)) →
      (request server).outcome = .apiError (some 503) ∧
        (request server).attempts = MAX_RETRIES + 1 ∧
        (request server).waits = [backoffWait 0, backoffWait 1, backoffWait 2]) ∧
    (∀ server : Nat → WireEvent,
      server 0 = .status 503 none → server 1 = .status 503 none →
      server 2 = .status 200 none →
      (request server).outcome = .ok ∧ (request server).attempts = 3 ∧
        (request server).waits = [backoffWait 0, backoffWait 1]) ∧
    (∀ server : Nat → WireEvent, (∀ i, i ≤ MAX_RETRIES → server i = .timeout) →
      (request server).outcome = .apiError none ∧
        (request server).attempts = MAX_RETRIES + 1 ∧
        (request server).waits = [backoffWait 0, backoffWait 1, backoffWait 2]) := by
  refine ⟨?_, ?_, ?_⟩
  · intro server ra h
    have h0 := h 0 (by simp [MAX_RETRIES])
    have h1 := h 1 (by simp [MAX_RETRIES])
    have h2 := h 2 (by simp [MAX_RETRIES])
    have h3 := h 3 (by simp [MAX_RETRIES])
    unfold request
    rw [requestAux, h0, requestAux, h1, requestAux, h2, requestAux, h3]
    simp [MAX_RETRIES, withRetry]
  · intro server h0 h1 h2
    unfold request
    rw [requestAux, h0, requestAux, h1, requestAux, h2]
    simp [MAX_RETRIES, withRetry]
  · intro server h
    have h0 := h 0 (by simp [MAX_RETRIES])
    have h1 := h 1 (by simp [MAX_RETRIES])
    have h2 := h 2 (by simp [MAX_RETRIES])
    have h3 := h 3 (by simp [MAX_RETRIES])
    unfold request
    rw [requestAux, h0, requestAux, h1, requestAux, h2, requestAux, h3]
    simp [MAX_RETRIES, withRetry]

def srv503all : Nat → WireEvent := fun _ => .status 503 none

def srv503twice : Nat → WireEvent := fun i =>
  if i < 2 then .status 503 none else .status 200 none

def srvTimeoutAll : Nat → WireEvent := fun _ => .timeout

theorem c6_transient_retry_cap_witness :
    (request srv503all).outcome = .apiError (some 503) ∧
    (request srv503all).attempts = 4 ∧
    (request srv503twice).outcome = .ok ∧
    (request srv503twice).attempts = 3 ∧
    (request srvTimeoutAll).outcome = .apiError none ∧
    (request srvTimeoutAll).waits = [1, 2, 4] := by
  have hA := c6_transient_retry_cap.1 srv503all (fun _ => none) (fun i _ => rfl)
  have hB := c6_transient_retry_cap.2.1 srv503twice rfl rfl rfl
  have hC := c6_transient_retry_cap.2.2 srvTimeoutAll (fun i _ => rfl)
  refine ⟨hA.1, hA.2.1.trans rfl, hB.1, hB.2.1, hC.1, ?_⟩
  rw [hC.2.2]
  simp [backoffWait, RETRY_DELAY_SECONDS, RETRY_BACKOFF_MULTIPLIER]

def c5srv : Nat → WireEvent := fun i =>
  if i = 0 then .status 429 (some 0) else .status 200 none

/-- C5 counterexample: the claim says that whenever a `Retry-After` header is
present the wait equals the header's value.  A 429 with `Retry-After: 0`
refutes it: the source computes `retry_after_seconds or (delay * mult ** n)`
and `0` is falsy in Python, so the recorded wait is the exponential default
`1`, not the header value `0`. -/
theorem c5_retry_after_zero_counterexample :
    c5srv 0 = .status 429 (some 0) ∧
    (request c5srv).waits = [1] ∧ (request c5srv).waits ≠ [0] := by
  refine ⟨rfl, ?_, ?_⟩ <;>
    simp [request, requestAux, c5srv, wait429, backoffWait, MAX_RETRIES,
      RETRY_DELAY_SECONDS, RETRY_BACKOFF_MULTIPLIER, withRetry]

/-- C5 (amended): for every 429 response with retries remaining, the wait
before the retry is `wait429`: the `Retry-After` header value when present
and nonzero, otherwise `base_delay * multiplier ^ attempt` (base 1,
multiplier 2); the budget is `MAX_RETRIES = 3` retries, and exhausting it
raises `PennylaneRateLimitError` carrying the final 429 response's
`Retry-After` value. -/
theorem c5_rate_limit_retry_amended :
    (∀ (server : Nat → WireEvent) (ra : Option Nat) (rc : Nat),
      rc < MAX_RETRIES → server rc = .status 429 ra →
      (requestAux server rc).waits.head? = some (wait429 ra rc)) ∧
    (∀ (server : Nat → WireEvent) (ra : Nat → Option Nat),
      (∀ i, i ≤ MAX_RETRIES → server i = .status 429 (ra i)) →
      (request server).outcome = .rateLimitError (ra MAX_RETRIES) ∧
        (request server).attempts = MAX_RETRIES + 1 ∧
        (request server).waits = [wait429 (ra 0) 0, wait429 (ra 1) 1, wait429 (ra 2) 2]) := by
  constructor
  · intro server ra rc hlt h
    rw [requestAux, h]
    simp [hlt, withRetry]
  · intro server ra h
    have h0 := h 0 (by simp [MAX_RETRIES])
    have h1 := h 1 (by simp [MAX_RETRIES])
    have h2 := h 2 (by simp [MAX_RETRIES])
    have h3 := h 3 (by simp [MAX_RETRIES])
    unfold request
    rw [requestAux, h0, requestAux, h1, requestAux, h2, requestAux, h3]
    simp [MAX_RETRIES, withRetry]

def c5wsrvA : Nat → WireEvent := fun i =>
  if i = 0 then .status 429 (some 5) else .status 200 none

def c5wsrvB : Nat → WireEvent := fun _ => .status 429 (some 7)

theorem c5_rate_limit_retry_amended_witness :
    (requestAux c5wsrvA 0).waits.head? = some 5 ∧
    (request c5wsrvB).outcome = .rateLimitError (some 7) := by
  have h1 := c5_rate_limit_retry_amended.1 c5wsrvA (some 5) 0 (by simp [MAX_RETRIES]) rfl
  have h2 := (c5_rate_limit_retry_amended.2 c5wsrvB (fun _ => some 7) (fun i _ => rfl)).1
  exact ⟨by simpa [wait429] using h1, h2⟩

/-! ## Claims about pagination (C4) -/

def c4page1 : Page := { items := ["a"], hasMore := true, nextCursor := none }

def c4page2 : Page := { items := ["b"], hasMore := true, nextCursor := some "c2" }

/-- C4 counterexample: the claim says iteration stops exactly when a page is
empty or `has_more` is false.  A page with one item, `has_more = true` and a
null `next_cursor` refutes "exactly": the source continues only under
`has_more and next_cursor` (line 481), so it stops after a single fetch even
though neither of the claim's stop conditions holds, never fetching the
second page. -/
theorem c4_cursor_stop_counterexample :
    specStopPage c4page1 = false ∧
    fetchAllPages [c4page1, c4page2] = some (["a"], 1) := by
  constructor <;> rfl

/-- C4 (amended): `per_page` is capped at 100; one page fetch is performed
per consumed page; iteration stops exactly at the first page that is empty
or fails `has_more and next_cursor` (a truthy, i.e. non-null non-empty,
cursor is also required to continue); the yielded records are the
concatenation of the consumed pages' items.  In particular pages of sizes
[100, 100, 37] with `has_more = [true, true, false]` and truthy cursors
yield 237 records in 3 fetches (see the witness). -/
theorem c4_pagination_termination_amended :
    (∀ perPage : Nat, perPageParam perPage ≤ 100) ∧
    (∀ (ps : List Page) (its : List String) (n : Nat),
      fetchAllPages ps = some (its, n) →
      1 ≤ n ∧ n ≤ ps.length ∧
      its = ((ps.take n).map Page.items).flatten ∧
      (∀ i, i + 1 < n → codeStopPage (ps.getD i default) = false) ∧
      codeStopPage (ps.getD (n - 1) default) = true) := by
  constructor
  · intro perPage
    simp [perPageParam]
  · intro ps
    induction ps with
    | nil => intro its n h; simp [fetchAllPages] at h
    | cons p rest ih =>
        intro its n h
        rw [fetchAllPages] at h
        by_cases he : p.items.isEmpty
        · rw [if_pos he] at h
          simp only [Option.some.injEq, Prod.mk.injEq] at h
          obtain ⟨rfl, rfl⟩ := h
          have hpe : p.items = [] := by simpa using he
          refine ⟨le_refl 1, by simp, by simp [hpe], ?_, ?_⟩
          · intro i hi; omega
          · simp [codeStopPage, he]
        · rw [if_neg he] at h
          by_cases hc : pageContinue p
          · rw [if_pos hc] at h
            cases hrec : fetchAllPages rest with
            | none => rw [hrec] at h; exact absurd h (by simp)
            | some pr =>
                obtain ⟨its', n'⟩ := pr
                rw [hrec] at h
                simp only [Option.some.injEq, Prod.mk.injEq] at h
                obtain ⟨rfl, rfl⟩ := h
                obtain ⟨ih1, ih2, ih3, ih4, ih5⟩ := ih its' n' hrec
                refine ⟨by omega, by simp; omega, ?_, ?_, ?_⟩
                · simp [List.take_succ_cons, ih3]
                · intro i hi
                  cases i with
                  | zero => simp [codeStopPage, he, hc]
                  | succ j =>
                      have hj := ih4 j (by omega)
                      simpa using hj
                · have hn' : n' - 1 + 1 = n' := by omega
                  rw [show n' + 1 - 1 = n' from rfl, ← hn']
                  simpa using ih5
          · rw [if_neg hc] at h
            simp only [Option.some.injEq, Prod.mk.injEq] at h
            obtain ⟨rfl, rfl⟩ := h
            refine ⟨le_refl 1, by simp, by simp, ?_, ?_⟩
            · intro i hi; omega
            · simp [codeStopPage, hc]

def pages237 : List Page :=
  [{ items := List.replicate 100 "r1", hasMore := true, nextCursor := some "c1" },
   { items := List.replicate 100 "r2", hasMore := true, nextCursor := some "c2" },
   { items := List.replicate 37 "r3", hasMore := false, nextCursor := none }]

def its237 : List String :=
  List.replicate 100 "r1" ++ (List.replicate 100 "r2" ++ List.replicate 37 "r3")

set_option maxRecDepth 8000 in
theorem c4_pagination_termination_amended_witness :
    fetchAllPages pages237 = some (its237, 3) ∧ its237.length = 237 ∧
    (1 ≤ 3 ∧ 3 ≤ pages237.length ∧
      its237 = ((pages237.take 3).map Page.items).flatten ∧
      (∀ i, i + 1 < 3 → codeStopPage (pages237.getD i default) = false) ∧
      codeStopPage (pages237.getD (3 - 1) default) = true) := by
  have h : fetchAllPages pages237 = some (its237, 3) := by rfl
  exact ⟨h, by decide, c4_pagination_termination_amended.2 pages237 its237 3 h⟩

/-! ## Sync layer: shared pieces

Python string truthiness and the `a or b` fallback idiom used throughout
the field mappings of `PennylaneSyncService`. -/

/-- Truthiness of an optional string value: present and non-empty. -/
def optTruthy : Option String → Bool
  | some s => !s.isEmpty
  | none => false

/-- Python `a or b` on two optional string values. -/
def strOr (a b : Option String) : Option String := if optTruthy a then a else b

/-- Python `a or None` (normalises a falsy value to null). -/
def strOrNone (a : Option String) : Option String := if optTruthy a then a else none

/-- Python `a or b` where `b` is a plain string. -/
def strOrD (a : Option String) (b : String) : String :=
  match a with
  | some s => if s.isEmpty then b else s
  | none => b

/-- `SyncResult` dataclass (source lines 83-103). -/
structure SyncResult where
  entity_type : String
  total_fetched : Nat := 0
  created : Nat := 0
  updated : Nat := 0
  errors : List String := []
  success : Bool := true
deriving DecidableEq

/-- `SyncResult.add_error` (lines 94-97): record an error and mark failure. -/
def SyncResult.addError (r : SyncResult) (e : String) : SyncResult :=
  { r with errors := r.errors ++ [e], success := false }

/-- A client-level error surfaced to a syncer, mirroring the exception
classes (message text carried as data). -/
inductive ApiError where
  | auth (message : String) (statusCode : Nat)
  | rateLimit (message : String) (retryAfter : Option Nat)
  | generic (message : String) (statusCode : Option Nat)
deriving DecidableEq

/-- `str(e)` for the three exception classes (source lines 46-49, 55-56,
72-75); a falsy (zero) `retry_after` omits the suffix, as in the source. -/
def ApiError.toStr : ApiError → String
  | .auth m _ => "PennylaneAuthError: " ++ m
  | .rateLimit m ra =>
      match ra with
      | some n =>
          if n = 0 then "PennylaneRateLimitError: " ++ m
          else "PennylaneRateLimitError: " ++ m ++ " (retry after " ++ toString n ++ "s)"
      | none => "PennylaneRateLimitError: " ++ m
  | .generic m c =>
      match c with
      | some n => "PennylaneAPIError(" ++ toString n ++ "): " ++ m
      | none => "PennylaneAPIError: " ++ m

/-! ### Remote record shapes

One structure per JSON payload shape consumed by the syncers.  Fields are
exactly the keys the source reads; `none` models an absent (or null) key. -/

/-- Nested `billing_address` / `delivery_address` sub-object (lines 592-593). -/
structure AddressRecord where
  address : Option String := none
  city : Option String := none
  postal_code : Option String := none
  country_alpha2 : Option String := none
deriving DecidableEq, Inhabited

/-- A customer payload as read by `sync_customers` (lines 576-631). -/
structure CustomerRecord where
  id : Option String := none
  source_id : Option String := none
  name : Option String := none
  company_name : Option String := none
  first_name : Option String := none
  last_name : Option String := none
  email : Option String := none
  emails : Option (List (Option String)) := none
  phone : Option String := none
  billing_address : Option AddressRecord := none
  delivery_address : Option AddressRecord := none
  address : Option String := none
  city : Option String := none
  postal_code : Option String := none
  zipcode : Option String := none
  country : Option String := none
  country_alpha2 : Option String := none
  vat_number : Option String := none
  customer_type : Option String := none
  reg_no : Option String := none
  recipient : Option String := none
  reference : Option String := none
  external_reference : Option String := none
  billing_language : Option String := none
  payment_conditions : Option String := none
  notes : Option String := none
  billing_iban : Option String := none
  created_at : Option String := none
  updated_at : Option String := none
deriving DecidableEq, Inhabited

/-- The `customer` sub-object of invoice/quote/subscription payloads
(`{'id': ..., 'url': ...}`, lines 724-726). -/
structure CustomerRef where
  id : Option String := none
  url : Option String := none
deriving DecidableEq, Inhabited

/-- An invoice payload as read by `sync_invoices` (lines 709-744). -/
structure InvoiceRecord where
  id : Option String := none
  invoice_number : Option String := none
  label : Option String := none
  status : Option String := none
  customer : Option CustomerRef := none
  amount : Option String := none
  total : Option String := none
  currency : Option String := none
  date : Option String := none
  issue_date : Option String := none
  deadline : Option String := none
  due_date : Option String := none
  paid_date : Option String := none
  public_file_url : Option String := none
  file_url : Option String := none
  pdf_invoice_url : Option String := none
  public_url : Option String := none
  pdf_url : Option String := none
deriving DecidableEq, Inhabited

/-- A quote payload as read by `sync_quotes` (lines 805-839). -/
structure QuoteRecord where
  id : Option String := none
  quote_number : Option String := none
  label : Option String := none
  status : Option String := none
  customer : Option CustomerRef := none
  amount : Option String := none
  total : Option String := none
  currency : Option String := none
  date : Option String := none
  issue_date : Option String := none
  deadline : Option String := none
  expiry_date : Option String := none
  accepted_at : Option String := none
deriving DecidableEq, Inhabited

/-- Nested `customer_invoice_data` of a subscription payload (line 921). -/
structure SubInvoiceData where
  amount : Option String := none
  currency : Option String := none
deriving DecidableEq, Inhabited

/-- Nested `recurring_rule` of a subscription payload (line 922). -/
structure RecurringRule where
  rule_type : Option String := none
deriving DecidableEq, Inhabited

/-- A billing-subscription payload as read by `sync_subscriptions`
(lines 900-938). -/
structure SubscriptionRecord where
  id : Option String := none
  status : Option String := none
  customer : Option CustomerRef := none
  customer_invoice_data : Option SubInvoiceData := none
  recurring_rule : Option RecurringRule := none
  amount : Option String := none
  currency : Option String := none
  interval : Option String := none
  start : Option String := none
  start_date : Option String := none
  next_occurrence : Option String := none
  next_billing_date : Option String := none
  stopped_at : Option String := none
  cancelled_at : Option String := none
deriving DecidableEq, Inhabited

/-- The deterministic helpers of `PennylaneSyncService` abstracted as
parameters: `_parse_date` / `_parse_datetime` / `_parse_decimal` cores
(called on a truthy input only, returning the parsed value or `None`), and
the Python `repr` used in the missing-id error f-strings.  No claim depends
on their behaviour. -/
structure ParseEnv where
  parseDate : String → Option String
  parseDatetime : String → Option String
  parseDecimal : String → Option String
  reprCustomer : CustomerRecord → String
  reprInvoice : InvoiceRecord → String
  reprQuote : QuoteRecord → String
  reprSubscription : SubscriptionRecord → String

/-- `_parse_date` (lines 520-533): `if not date_str: return None`, then parse. -/
def parseDateOpt (env : ParseEnv) (v : Option String) : Option String :=
  match v with
  | some s => if s.isEmpty then none else env.parseDate s
  | none => none

/-- `_parse_datetime` (lines 535-545): `if not dt_str: return None`, then parse. -/
def parseDatetimeOpt (env : ParseEnv) (v : Option String) : Option String :=
  match v with
  | some s => if s.isEmpty then none else env.parseDatetime s
  | none => none

/-- `_parse_decimal` (lines 547-554): `if value is None: return None`, then parse. -/
def parseDecimalOpt (env : ParseEnv) (v : Option String) : Option String :=
  v.bind env.parseDecimal

/-- A trivial instantiation of the parsing environment, used by the concrete
witnesses. -/
def trivEnv : ParseEnv :=
  { parseDate := fun s => some s
    parseDatetime := fun s => some s
    parseDecimal := fun s => some s
    reprCustomer := fun _ => "payload"
    reprInvoice := fun _ => "payload"
    reprQuote := fun _ => "payload"
    reprSubscription := fun _ => "payload" }

/-! ### Field extraction helpers (from the source, with their slips) -/

/-- The email expression at line 602:
`customer_data.get("email") or customer_data.get("emails", [None])[0] if
customer_data.get("emails") else None`.  Python's conditional expression has
the lowest precedence, so this parses as
`(get("email") or get("emails", [None])[0]) if get("emails") else None`:
when `emails` is absent or falsy the whole expression is `None`, even when
`email` is present and non-empty. -/
def customerEmail (r : CustomerRecord) : Option String :=
  match r.emails with
  | some (e :: _) => if optTruthy r.email then r.email else e
  | some [] => none
  | none => none

/-- `str(customer_data.get("id", customer_data.get("source_id", "")))`
(line 576): the customer identifier with `source_id` fallback. -/
def customerKey (r : CustomerRecord) : String := r.id.getD (r.source_id.getD "")

/-- `str(customer.get("id")) if isinstance(customer, dict) and
customer.get("id") else None` (lines 726, 822, 917). -/
def custRefId (c : Option CustomerRef) : Option String :=
  match c with
  | some ref =>
      match ref.id with
      | some s => if s.isEmpty then none else some s
      | none => none
  | none => none

/-- `customer_lookup.get(customer_id) if customer_id else None`
(lines 734, 830, 928); `custRefId` never returns an empty string, so
presence is truthiness. -/
def lookupName (lookup : String → Option String) (cid : Option String) : Option String :=
  match cid with
  | some s => lookup s
  | none => none

/-- `_extract_pdf_url` (lines 667-682): the first candidate field that is a
string starting with `"http"`. -/
def firstHttpUrl : List (Option String) → Option String
  | [] => none
  | some s :: rest => if s.startsWith "http" then some s else firstHttpUrl rest
  | none :: rest => firstHttpUrl rest

def extractPdfUrl (r : InvoiceRecord) : Option String :=
  firstHttpUrl [r.public_file_url, r.file_url, r.pdf_invoice_url, r.public_url, r.pdf_url]

/-! ### Stored rows (typed projections; one structure per SyncedEntity table) -/

/-- A `PennylaneCustomer` row as written by `sync_customers`
(`customer_values`, lines 596-631).  Dates/decimals are the abstract parsed
values; `synced_at` is the run timestamp (`func.now()`). -/
structure CustomerRow where
  pennylane_id : String
  connection_id : Nat
  name : Option String
  first_name : Option String
  last_name : Option String
  email : Option String
  phone : Option String
  address : Option String
  city : Option String
  postal_code : Option String
  country_code : Option String
  delivery_address : Option String
  delivery_city : Option String
  delivery_postal_code : Option String
  delivery_country_code : Option String
  vat_number : Option String
  customer_type : String
  reg_no : Option String
  recipient : Option String
  reference : Option String
  external_reference : Option String
  billing_language : Option String
  payment_conditions : Option String
  notes : Option String
  billing_iban : Option String
  pennylane_created_at : Option String
  pennylane_updated_at : Option String
  raw_data : CustomerRecord
  synced_at : Nat
deriving DecidableEq, Inhabited

/-- The `customer_values` mapping (lines 592-631). -/
def customerValues (env : ParseEnv) (connId : Nat) (now : Nat) (r : CustomerRecord) :
    CustomerRow :=
  let billing := r.billing_address.getD {}
  let delivery := r.delivery_address.getD {}
  { pennylane_id := customerKey r
    connection_id := connId
    name := strOr r.name r.company_name
    first_name := r.first_name
    last_name := r.last_name
    email := customerEmail r
    phone := r.phone
    address := strOr billing.address r.address
    city := strOr billing.city r.city
    postal_code := strOr billing.postal_code (strOr r.postal_code r.zipcode)
    country_code := strOr billing.country_alpha2 (strOr r.country r.country_alpha2)
    delivery_address := strOrNone delivery.address
    delivery_city := strOrNone delivery.city
    delivery_postal_code := strOrNone delivery.postal_code
    delivery_country_code := strOrNone delivery.country_alpha2
    vat_number := r.vat_number
    customer_type := strOrD r.customer_type (if optTruthy r.company_name then "company" else "individual")
    reg_no := r.reg_no
    recipient := r.recipient
    reference := r.reference
    external_reference := r.external_reference
    billing_language := r.billing_language
    payment_conditions := r.payment_conditions
    notes := r.notes
    billing_iban := r.billing_iban
    pennylane_created_at := parseDatetimeOpt env r.created_at
    pennylane_updated_at := parseDatetimeOpt env r.updated_at
    raw_data := r
    synced_at := now }

/-- A `PennylaneInvoice` row as written by `sync_invoices`
(`invoice_values`, lines 729-744). -/
structure InvoiceRow where
  pennylane_id : String
  connection_id : Nat
  invoice_number : Option String
  status : Option String
  customer_name : Option String
  customer_id : Option String
  amount : Option String
  currency : String
  issue_date : Option String
  due_date : Option String
  paid_date : Option String
  pdf_url : Option String
  raw_data : InvoiceRecord
  synced_at : Nat
deriving DecidableEq, Inhabited

/-- `str(invoice_data.get("id", ""))` (lines 709, 805, 900). -/
def invoiceKey (r : InvoiceRecord) : String := r.id.getD ""

/-- The `invoice_values` mapping (lines 729-744). -/
def invoiceValues (env : ParseEnv) (connId : Nat) (lookup : String → Option String)
    (now : Nat) (r : InvoiceRecord) : InvoiceRow :=
  let cid := custRefId r.customer
  { pennylane_id := invoiceKey r
    connection_id := connId
    invoice_number := strOr r.invoice_number r.label
    status := r.status
    customer_name := lookupName lookup cid
    customer_id := cid
    amount := parseDecimalOpt env (strOr r.amount r.total)
    currency := r.currency.getD "EUR"
    issue_date := parseDateOpt env (strOr r.date r.issue_date)
    due_date := parseDateOpt env (strOr r.deadline r.due_date)
    paid_date := parseDateOpt env r.paid_date
    pdf_url := extractPdfUrl r
    raw_data := r
    synced_at := now }

/-- A `PennylaneQuote` row as written by `sync_quotes`
(`quote_values`, lines 825-839). -/
structure QuoteRow where
  pennylane_id : String
  connection_id : Nat
  quote_number : Option String
  status : Option String
  customer_name : Option String
  customer_id : Option String
  amount : Option String
  currency : String
  issue_date : Option String
  valid_until : Option String
  accepted_at : Option String
  raw_data : QuoteRecord
  synced_at : Nat
deriving DecidableEq, Inhabited

def quoteKey (r : QuoteRecord) : String := r.id.getD ""

/-- The `quote_values` mapping (lines 825-839). -/
def quoteValues (env : ParseEnv) (connId : Nat) (lookup : String → Option String)
    (now : Nat) (r : QuoteRecord) : QuoteRow :=
  let cid := custRefId r.customer
  { pennylane_id := quoteKey r
    connection_id := connId
    quote_number := strOr r.quote_number r.label
    status := r.status
    customer_name := lookupName lookup cid
    customer_id := cid
    amount := parseDecimalOpt env (strOr r.amount r.total)
    currency := r.currency.getD "EUR"
    issue_date := parseDateOpt env (strOr r.date r.issue_date)
    valid_until := parseDateOpt env (strOr r.deadline r.expiry_date)
    accepted_at := parseDatetimeOpt env r.accepted_at
    raw_data := r
    synced_at := now }

/-- A `PennylaneSubscription` row as written by `sync_subscriptions`
(`sub_values`, lines 924-938). -/
structure SubscriptionRow where
  pennylane_id : String
  connection_id : Nat
  status : Option String
  customer_name : Option String
  customer_id : Option String
  amount : Option String
  currency : String
  interval : Option String
  start_date : Option String
  next_billing_date : Option String
  cancelled_at : Option String
  raw_data : SubscriptionRecord
  synced_at : Nat
deriving DecidableEq, Inhabited

def subscriptionKey (r : SubscriptionRecord) : String := r.id.getD ""

/-- The `sub_values` mapping (lines 919-938); amount/currency prefer the
nested `customer_invoice_data`, interval prefers `recurring_rule.rule_type`. -/
def subscriptionValues (env : ParseEnv) (connId : Nat) (lookup : String → Option String)
    (now : Nat) (r : SubscriptionRecord) : SubscriptionRow :=
  let invData := r.customer_invoice_data.getD {}
  let rule := r.recurring_rule.getD {}
  let cid := custRefId r.customer
  { pennylane_id := subscriptionKey r
    connection_id := connId
    status := r.status
    customer_name := lookupName lookup cid
    customer_id := cid
    amount := parseDecimalOpt env (strOr invData.amount r.amount)
    currency := strOrD invData.currency (r.currency.getD "EUR")
    interval := strOr rule.rule_type r.interval
    start_date := parseDateOpt env (strOr r.start r.start_date)
    next_billing_date := parseDateOpt env (strOr r.next_occurrence r.next_billing_date)
    cancelled_at := parseDatetimeOpt env (strOr r.stopped_at r.cancelled_at)
    raw_data := r
    synced_at := now }

/-! ### The per-record upsert loop, generic over the entity kind

All four `sync_*` methods share the same structure (fetch → extract id →
first-match query on `(connection_id, pennylane_id)` → update all fields
except `connection_id`, or add a new row → single commit, with rollback on a
client error).  `EntityOps` packages the kind-specific pieces. -/

structure EntityOps (ρ σ : Type) where
  connId : Nat
  keyOf : ρ → String
  mkRow : ρ → σ
  connOf : σ → Nat
  pidOf : σ → String
  updRow : σ → σ → σ
  missingMsg : ρ → String
  kindName : String
  apiMsgStart : String

/-- The premises the concrete kinds satisfy: a fresh row carries the
connection id and the extracted key, and updating every field except
`connection_id` on a row of the same connection is wholesale replacement. -/
structure EntityLaws {ρ σ : Type} (E : EntityOps ρ σ) : Prop where
  conn_mk : ∀ r, E.connOf (E.mkRow r) = E.connId
  pid_mk : ∀ r, E.pidOf (E.mkRow r) = E.keyOf r
  conn_upd : ∀ old v, E.connOf (E.updRow old v) = E.connOf old
  pid_upd : ∀ old v, E.pidOf (E.updRow old v) = E.pidOf v
  upd_eq : ∀ old v, E.connOf old = E.connOf v → E.updRow old v = v

/-- The filter of the existence query (lines 582-589 etc.):
`connection_id == conn.id and pennylane_id == pid`. -/
def rowMatches {ρ σ : Type} (E : EntityOps ρ σ) (pid : String) (row : σ) : Bool :=
  E.connOf row == E.connId && E.pidOf row == pid

/-- Update the first row satisfying `P` in place, or append `v`
(`query(...).first()` + setattr loop, vs `db.add`).  Returns whether an
existing row was updated. -/
def upsertRow {σ : Type} (P : σ → Bool) (upd : σ → σ) (v : σ) : List σ → Bool × List σ
  | [] => (false, [v])
  | x :: xs =>
      if P x then (true, upd x :: xs)
      else
        let res := upsertRow P upd v xs
        (res.1, x :: res.2)

/-- One iteration of the per-record loop (e.g. lines 572-648 for
customers): count the record, error out on a missing id, otherwise upsert
and bump `updated` or `created`. -/
def syncStep {ρ σ : Type} (E : EntityOps ρ σ) (st : SyncResult × List σ) (r : ρ) :
    SyncResult × List σ :=
  let res := { st.1 with total_fetched := st.1.total_fetched + 1 }
  if (E.keyOf r).isEmpty then (res.addError (E.missingMsg r), st.2)
  else
    let v := E.mkRow r
    let u := upsertRow (rowMatches E (E.keyOf r)) (fun old => E.updRow old v) v st.2
    if u.1 then ({ res with updated := res.updated + 1 }, u.2)
    else ({ res with created := res.created + 1 }, u.2)

def initResult (kind : String) : SyncResult := { entity_type := kind }

/-- The full record loop over the items yielded by the iterator. -/
def syncRecords {ρ σ : Type} (E : EntityOps ρ σ) (rs : List ρ) (db : List σ) :
    SyncResult × List σ :=
  rs.foldl (syncStep E) (initResult E.kindName, db)

/-- One `sync_<kind>` call.  `fetch` carries the records yielded before the
iterator either finished (`none`) or raised a client error (`some e`); in
the latter case the error is recorded on the result (lines 653-657 etc.)
and the session is rolled back, leaving the stored table unchanged; in the
former the loop's writes are committed (line 650). -/
def syncEntity {ρ σ : Type} (E : EntityOps ρ σ) (fetch : List ρ × Option ApiError)
    (db : List σ) : SyncResult × List σ :=
  let out := syncRecords E fetch.1 db
  match fetch.2 with
  | none => out
  | some e => (out.1.addError (E.apiMsgStart ++ e.toStr), db)

/-- The `EntityOps` of `sync_customers`. -/
def customerOps (env : ParseEnv) (connId : Nat) (now : Nat) :
    EntityOps CustomerRecord CustomerRow :=
  { connId := connId
    keyOf := customerKey
    mkRow := customerValues env connId now
    connOf := fun row => row.connection_id
    pidOf := fun row => row.pennylane_id
    updRow := fun old v => { v with connection_id := old.connection_id }
    missingMsg := fun r => "Customer missing ID: " ++ env.reprCustomer r
    kindName := "customers"
    apiMsgStart := "API error during customer sync: " }

/-- The `EntityOps` of `sync_invoices`. -/
def invoiceOps (env : ParseEnv) (connId : Nat) (lookup : String → Option String)
    (now : Nat) : EntityOps InvoiceRecord InvoiceRow :=
  { connId := connId
    keyOf := invoiceKey
    mkRow := invoiceValues env connId lookup now
    connOf := fun row => row.connection_id
    pidOf := fun row => row.pennylane_id
    updRow := fun old v => { v with connection_id := old.connection_id }
    missingMsg := fun r => "Invoice missing ID: " ++ env.reprInvoice r
    kindName := "invoices"
    apiMsgStart := "API error during invoice sync: " }

/-- The `EntityOps` of `sync_quotes`. -/
def quoteOps (env : ParseEnv) (connId : Nat) (lookup : String → Option String)
    (now : Nat) : EntityOps QuoteRecord QuoteRow :=
  { connId := connId
    keyOf := quoteKey
    mkRow := quoteValues env connId lookup now
    connOf := fun row => row.connection_id
    pidOf := fun row => row.pennylane_id
    updRow := fun old v => { v with connection_id := old.connection_id }
    missingMsg := fun r => "Quote missing ID: " ++ env.reprQuote r
    kindName := "quotes"
    apiMsgStart := "API error during quote sync: " }

/-- The `EntityOps` of `sync_subscriptions`. -/
def subscriptionOps (env : ParseEnv) (connId : Nat) (lookup : String → Option String)
    (now : Nat) : EntityOps SubscriptionRecord SubscriptionRow :=
  { connId := connId
    keyOf := subscriptionKey
    mkRow := subscriptionValues env connId lookup now
    connOf := fun row => row.connection_id
    pidOf := fun row => row.pennylane_id
    updRow := fun old v => { v with connection_id := old.connection_id }
    missingMsg := fun r => "Subscription missing ID: " ++ env.reprSubscription r
    kindName := "subscriptions"
    apiMsgStart := "API error during subscription sync: " }

/-! ### The orchestrator `sync_all` (lines 978-1053) -/

/-- `PennylaneConnection`: the fields the orchestrator reads and writes. -/
structure Connection where
  id : Nat
  name : String
  sync_customers : Bool := true
  sync_invoices : Bool := true
  sync_quotes : Bool := true
  sync_subscriptions : Bool := true
  last_sync_at : Option Nat := none
  last_sync_status : Option String := none
  last_sync_error : Option String := none
deriving DecidableEq, Inhabited

/-- The four SyncedEntity tables of the store (rows of all connections). -/
structure SyncDb where
  customers : List CustomerRow := []
  invoices : List InvoiceRow := []
  quotes : List QuoteRow := []
  subscriptions : List SubscriptionRow := []
deriving DecidableEq, Inhabited

/-- What the remote API would serve this run, per endpoint: the records the
pagination iterator yields, plus a client error raised after them (if any). -/
structure RemoteData where
  customers : List CustomerRecord × Option ApiError := ([], none)
  invoices : List InvoiceRecord × Option ApiError := ([], none)
  quotes : List QuoteRecord × Option ApiError := ([], none)
  subscriptions : List SubscriptionRecord × Option ApiError := ([], none)
deriving Inhabited

/-- The customer-name lookup built at lines 1004-1010: all stored customers
of this connection, keeping `pennylane_id → name` for truthy pairs (later
rows overwrite earlier ones, as in a dict). -/
def buildCustomerLookup (connId : Nat) (rows : List CustomerRow) :
    String → Option String :=
  (rows.filter (fun c => c.connection_id == connId)).foldl
    (fun acc c =>
      if c.pennylane_id.isEmpty then acc
      else
        match c.name with
        | some n => if n.isEmpty then acc else fun k => if k == c.pennylane_id then some n else acc k
        | none => acc)
    (fun _ => none)

/-- The incremental `errors.extend(...)` of lines 997-1031: errors of the
kinds whose result was not successful, in sync order. -/
def aggregateErrors (results : List (String × SyncResult)) : List String :=
  results.foldl (fun acc kr => if kr.2.success then acc else acc ++ kr.2.errors) []

structure SyncAllOut where
  results : List (String × SyncResult)
  conn : Connection
  db : SyncDb

/-- Shallow embedding of `sync_all` (lines 978-1053): customers first (if
enabled), then the lookup from the stored customers table, then invoices,
quotes, subscriptions (if enabled), then the single status update:
`last_sync_status = "success" if all_success else "partial" if results
else "failed"` and `last_sync_error = "\n".join(errors) if errors else
None`. -/
def syncAll (env : ParseEnv) (conn : Connection) (now : Nat) (remote : RemoteData)
    (db : SyncDb) : SyncAllOut :=
  let s1 : List (String × SyncResult) × SyncDb :=
    if conn.sync_customers then
      let p := syncEntity (customerOps env conn.id now) remote.customers db.customers
      ([("customers", p.1)], { db with customers := p.2 })
    else ([], db)
  let lookup := buildCustomerLookup conn.id s1.2.customers
  let s2 : List (String × SyncResult) × SyncDb :=
    if conn.sync_invoices then
      let p := syncEntity (invoiceOps env conn.id lookup now) remote.invoices s1.2.invoices
      (s1.1 ++ [("invoices", p.1)], { s1.2 with invoices := p.2 })
    else s1
  let s3 : List (String × SyncResult) × SyncDb :=
    if conn.sync_quotes then
      let p := syncEntity (quoteOps env conn.id lookup now) remote.quotes s2.2.quotes
      (s2.1 ++ [("quotes", p.1)], { s2.2 with quotes := p.2 })
    else s2
  let s4 : List (String × SyncResult) × SyncDb :=
    if conn.sync_subscriptions then
      let p := syncEntity (subscriptionOps env conn.id lookup now) remote.subscriptions
        s3.2.subscriptions
      (s3.1 ++ [("subscriptions", p.1)], { s3.2 with subscriptions := p.2 })
    else s3
  let results := s4.1
  let errs := aggregateErrors results
  let status :=
    if results.all (fun kr => kr.2.success) then "success"
    else if results.isEmpty then "failed" else "partial"
  { results := results
    conn := { conn with
      last_sync_at := some now
      last_sync_status := some status
      last_sync_error := if errs.isEmpty then none else some (String.intercalate "\n" errs) }
    db := s4.2 }

/-! ## Basic lemmas about the record loop -/

/-- The database effect of one record: unchanged on a missing id, otherwise
the upsert. -/
def dbStep {ρ σ : Type} (E : EntityOps ρ σ) (r : ρ) (db : List σ) : List σ :=
  if (E.keyOf r).isEmpty then db
  else (upsertRow (rowMatches E (E.keyOf r)) (fun old => E.updRow old (E.mkRow r))
    (E.mkRow r) db).2

def runDb {ρ σ : Type} (E : EntityOps ρ σ) (rs : List ρ) (db : List σ) : List σ :=
  rs.foldl (fun d r => dbStep E r d) db

lemma syncStep_fetched {ρ σ : Type} (E : EntityOps ρ σ) (st : SyncResult × List σ) (r : ρ) :
    (syncStep E st r).1.total_fetched = st.1.total_fetched + 1 := by
  unfold syncStep
  split
  · rfl
  · dsimp only
    split <;> rfl

lemma syncStep_entity {ρ σ : Type} (E : EntityOps ρ σ) (st : SyncResult × List σ) (r : ρ) :
    (syncStep E st r).1.entity_type = st.1.entity_type := by
  unfold syncStep
  split
  · rfl
  · dsimp only
    split <;> rfl

lemma syncStep_errors {ρ σ : Type} (E : EntityOps ρ σ) (st : SyncResult × List σ) (r : ρ) :
    (syncStep E st r).1.errors =
      if (E.keyOf r).isEmpty then st.1.errors ++ [E.missingMsg r] else st.1.errors := by
  unfold syncStep
  split
  · simp_all [SyncResult.addError]
  · dsimp only
    split <;> simp_all

lemma syncStep_success {ρ σ : Type} (E : EntityOps ρ σ) (st : SyncResult × List σ) (r : ρ) :
    (syncStep E st r).1.success = (st.1.success && !(E.keyOf r).isEmpty) := by
  unfold syncStep
  split
  · simp_all [SyncResult.addError]
  · dsimp only
    split <;> simp_all

lemma syncStep_cu {ρ σ : Type} (E : EntityOps ρ σ) (st : SyncResult × List σ) (r : ρ) :
    (syncStep E st r).1.created + (syncStep E st r).1.updated =
      st.1.created + st.1.updated + (if (E.keyOf r).isEmpty then 0 else 1) := by
  unfold syncStep
  split
  · simp_all [SyncResult.addError]
  · dsimp only
    split <;> simp_all <;> omega

lemma syncStep_db {ρ σ : Type} (E : EntityOps ρ σ) (st : SyncResult × List σ) (r : ρ) :
    (syncStep E st r).2 = dbStep E r st.2 := by
  unfold syncStep dbStep
  split
  · simp_all
  · dsimp only
    split <;> simp_all

lemma foldl_syncStep_fetched {ρ σ : Type} (E : EntityOps ρ σ) (rs : List ρ) :
    ∀ st : SyncResult × List σ,
      (rs.foldl (syncStep E) st).1.total_fetched = st.1.total_fetched + rs.length := by
  induction rs with
  | nil => intro st; simp
  | cons r t ih =>
      intro st
      rw [List.foldl_cons, ih, syncStep_fetched]
      simp [Nat.add_assoc, Nat.add_comm 1 t.length]

lemma foldl_syncStep_entity {ρ σ : Type} (E : EntityOps ρ σ) (rs : List ρ) :
    ∀ st : SyncResult × List σ,
      (rs.foldl (syncStep E) st).1.entity_type = st.1.entity_type := by
  induction rs with
  | nil => intro st; simp
  | cons r t ih =>
      intro st
      rw [List.foldl_cons, ih, syncStep_entity]

lemma foldl_syncStep_errors {ρ σ : Type} (E : EntityOps ρ σ) (rs : List ρ) :
    ∀ st : SyncResult × List σ,
      (rs.foldl (syncStep E) st).1.errors =
        st.1.errors ++ (rs.filter (fun r => (E.keyOf r).isEmpty)).map E.missingMsg := by
  induction rs with
  | nil => intro st; simp
  | cons r t ih =>
      intro st
      rw [List.foldl_cons, ih, syncStep_errors, List.filter_cons]
      by_cases hb : (E.keyOf r).isEmpty <;> simp [hb]

lemma foldl_syncStep_success {ρ σ : Type} (E : EntityOps ρ σ) (rs : List ρ) :
    ∀ st : SyncResult × List σ,
      (rs.foldl (syncStep E) st).1.success =
        (st.1.success && rs.all (fun r => !(E.keyOf r).isEmpty)) := by
  induction rs with
  | nil => intro st; simp
  | cons r t ih =>
      intro st
      rw [List.foldl_cons, ih, syncStep_success, List.all_cons]
      simp [Bool.and_assoc]

lemma foldl_syncStep_cu {ρ σ : Type} (E : EntityOps ρ σ) (rs : List ρ) :
    ∀ st : SyncResult × List σ,
      (rs.foldl (syncStep E) st).1.created + (rs.foldl (syncStep E) st).1.updated =
        st.1.created + st.1.updated +
          (rs.filter (fun r => !(E.keyOf r).isEmpty)).length := by
  induction rs with
  | nil => intro st; simp
  | cons r t ih =>
      intro st
      rw [List.foldl_cons, ih, syncStep_cu, List.filter_cons]
      by_cases hb : (E.keyOf r).isEmpty <;> simp [hb] <;> omega

lemma foldl_syncStep_db {ρ σ : Type} (E : EntityOps ρ σ) (rs : List ρ) :
    ∀ st : SyncResult × List σ, (rs.foldl (syncStep E) st).2 = runDb E rs st.2 := by
  induction rs with
  | nil => intro st; simp [runDb]
  | cons r t ih =>
      intro st
      rw [List.foldl_cons, ih, syncStep_db]
      simp [runDb]

/-- A per-kind result is successful exactly when its error list is empty. -/
lemma syncEntity_success_iff {ρ σ : Type} (E : EntityOps ρ σ)
    (f : List ρ × Option ApiError) (db : List σ) :
    ((syncEntity E f db).1.success = true ↔ (syncEntity E f db).1.errors = []) := by
  obtain ⟨rs, err⟩ := f
  cases err with
  | none =>
      simp only [syncEntity, syncRecords]
      rw [foldl_syncStep_success, foldl_syncStep_errors]
      simp [initResult, List.all_eq_true, List.filter_eq_nil_iff]
  | some e =>
      simp [syncEntity, SyncResult.addError]

/-- Run-1 success forces: no client error and every record carried an id. -/
lemma syncEntity_success_inv {ρ σ : Type} (E : EntityOps ρ σ)
    (rs : List ρ) (err : Option ApiError) (db : List σ)
    (h : (syncEntity E (rs, err) db).1.success = true) :
    err = none ∧ ∀ r ∈ rs, (E.keyOf r).isEmpty = false := by
  cases err with
  | none =>
      refine ⟨rfl, ?_⟩
      simp only [syncEntity, syncRecords] at h
      rw [foldl_syncStep_success] at h
      simp only [initResult, Bool.true_and, List.all_eq_true] at h
      intro r hr
      have := h r hr
      simpa using this
  | some e =>
      simp [syncEntity, SyncResult.addError] at h

/-! ## C8: missing-id record isolation -/

def invGood : InvoiceRecord := { id := some "inv-1", invoice_number := some "INV-1" }

def invBad : InvoiceRecord := { invoice_number := some "INV-BAD" }

def invoiceBatch50 : List InvoiceRecord :=
  List.replicate 25 invGood ++ [invBad] ++ List.replicate 24 invGood

set_option maxRecDepth 8000 in
/-- C8: every record yielded counts toward `total_fetched`; each record
without a remote id contributes exactly one error string
`"Invoice missing ID: <payload>"` (in order) and neither a create nor an
update, while every record with an id contributes exactly one
create-or-update; the result is successful iff no record lacked an id.
Concretely, one missing-id record among 50 invoice records gives
`total_fetched = 50`, `created + updated = 49`, one error, `success =
false`. -/
theorem c8_missing_id_isolation :
    (∀ (env : ParseEnv) (connId : Nat) (lookup : String → Option String) (now : Nat)
       (rs : List InvoiceRecord) (db : List InvoiceRow),
      (syncEntity (invoiceOps env connId lookup now) (rs, none) db).1.total_fetched
          = rs.length ∧
      (syncEntity (invoiceOps env connId lookup now) (rs, none) db).1.errors
          = (rs.filter (fun r => (invoiceKey r).isEmpty)).map
              (fun r => "Invoice missing ID: " ++ env.reprInvoice r) ∧
      (syncEntity (invoiceOps env connId lookup now) (rs, none) db).1.created
          + (syncEntity (invoiceOps env connId lookup now) (rs, none) db).1.updated
          = (rs.filter (fun r => !(invoiceKey r).isEmpty)).length ∧
      ((syncEntity (invoiceOps env connId lookup now) (rs, none) db).1.success = true
          ↔ rs.filter (fun r => (invoiceKey r).isEmpty) = [])) ∧
    ((syncEntity (invoiceOps trivEnv 7 (fun _ => none) 0) (invoiceBatch50, none) []).1.total_fetched = 50 ∧
     (syncEntity (invoiceOps trivEnv 7 (fun _ => none) 0) (invoiceBatch50, none) []).1.created
        + (syncEntity (invoiceOps trivEnv 7 (fun _ => none) 0) (invoiceBatch50, none) []).1.updated = 49 ∧
     (syncEntity (invoiceOps trivEnv 7 (fun _ => none) 0) (invoiceBatch50, none) []).1.errors.length = 1 ∧
     (syncEntity (invoiceOps trivEnv 7 (fun _ => none) 0) (invoiceBatch50, none) []).1.success = false) := by
  constructor
  · intro env connId lookup now rs db
    simp only [syncEntity, syncRecords]
    refine ⟨?_, ?_, ?_, ?_⟩
    · rw [foldl_syncStep_fetched]; simp [initResult]
    · rw [foldl_syncStep_errors]; simp [initResult, invoiceOps]
    · rw [foldl_syncStep_cu]; simp [initResult, invoiceOps]
    · rw [foldl_syncStep_success]
      simp [initResult, invoiceOps, List.all_eq_true, List.filter_eq_nil_iff]
  · decide

/-! ## C9: free-text fallback precedence (the email expression) -/

def c9Customer : CustomerRecord := { email := some "user@example.com" }

/-- C9: the claim says a non-empty `email` is stored regardless of whether
an `emails` list is present.  The code violates it: because Python's
conditional expression binds loosest, line 602 evaluates to `None` whenever
the `emails` key is absent or falsy, discarding a present non-empty
`email` (first conjunct, the failing input).  With `emails` present the
intended precedence does hold (fourth conjunct), and the
`invoice_number`-over-`label` fallback behaves as claimed (last two
conjuncts). -/
theorem c9_email_precedence_bug :
    (customerValues trivEnv 1 0 c9Customer).email = none ∧
    c9Customer.email = some "user@example.com" ∧
    c9Customer.emails = none ∧
    (customerValues trivEnv 1 0
        { c9Customer with emails := some [some "other@example.com"] }).email
      = some "user@example.com" ∧
    (invoiceValues trivEnv 1 (fun _ => none) 0
        { id := some "i1", invoice_number := some "INV-1", label := some "L-1" }).invoice_number
      = some "INV-1" ∧
    (invoiceValues trivEnv 1 (fun _ => none) 0
        { id := some "i2", label := some "L-2" }).invoice_number = some "L-2" := by
  refine ⟨rfl, rfl, rfl, ?_, ?_, ?_⟩ <;> decide

/-! ## Closed forms of `syncAll` -/

/-- The customers table after the (possible) customer sync step. -/
def customersAfter (env : ParseEnv) (conn : Connection) (now : Nat) (remote : RemoteData)
    (db : SyncDb) : List CustomerRow :=
  if conn.sync_customers then
    (syncEntity (customerOps env conn.id now) remote.customers db.customers).2
  else db.customers

/-- The customer-name lookup `sync_all` hands to the dependent kinds. -/
def lookupAfter (env : ParseEnv) (conn : Connection) (now : Nat) (remote : RemoteData)
    (db : SyncDb) : String → Option String :=
  buildCustomerLookup conn.id (customersAfter env conn now remote db)

def statusOf (results : List (String × SyncResult)) : String :=
  if results.all (fun kr => kr.2.success) then "success"
  else if results.isEmpty then "failed" else "partial"

def errorOf (results : List (String × SyncResult)) : Option String :=
  if (aggregateErrors results).isEmpty then none
  else some (String.intercalate "\n" (aggregateErrors results))

lemma syncAll_results_eq (env : ParseEnv) (conn : Connection) (now : Nat)
    (remote : RemoteData) (db : SyncDb) :
    (syncAll env conn now remote db).results =
      (if conn.sync_customers then
        [("customers", (syncEntity (customerOps env conn.id now) remote.customers db.customers).1)]
       else []) ++
      (if conn.sync_invoices then
        [("invoices", (syncEntity (invoiceOps env conn.id (lookupAfter env conn now remote db) now)
            remote.invoices db.invoices).1)]
       else []) ++
      (if conn.sync_quotes then
        [("quotes", (syncEntity (quoteOps env conn.id (lookupAfter env conn now remote db) now)
            remote.quotes db.quotes).1)]
       else []) ++
      (if conn.sync_subscriptions then
        [("subscriptions", (syncEntity (subscriptionOps env conn.id (lookupAfter env conn now remote db) now)
            remote.subscriptions db.subscriptions).1)]
       else []) := by
  by_cases h1 : conn.sync_customers <;> by_cases h2 : conn.sync_invoices <;>
    by_cases h3 : conn.sync_quotes <;> by_cases h4 : conn.sync_subscriptions <;>
      simp [syncAll, customersAfter, lookupAfter, h1, h2, h3, h4]

lemma syncAll_db_eq (env : ParseEnv) (conn : Connection) (now : Nat)
    (remote : RemoteData) (db : SyncDb) :
    (syncAll env conn now remote db).db =
      { customers := customersAfter env conn now remote db
        invoices :=
          if conn.sync_invoices then
            (syncEntity (invoiceOps env conn.id (lookupAfter env conn now remote db) now)
              remote.invoices db.invoices).2
          else db.invoices
        quotes :=
          if conn.sync_quotes then
            (syncEntity (quoteOps env conn.id (lookupAfter env conn now remote db) now)
              remote.quotes db.quotes).2
          else db.quotes
        subscriptions :=
          if conn.sync_subscriptions then
            (syncEntity (subscriptionOps env conn.id (lookupAfter env conn now remote db) now)
              remote.subscriptions db.subscriptions).2
          else db.subscriptions } := by
  by_cases h1 : conn.sync_customers <;> by_cases h2 : conn.sync_invoices <;>
    by_cases h3 : conn.sync_quotes <;> by_cases h4 : conn.sync_subscriptions <;>
      simp [syncAll, customersAfter, lookupAfter, h1, h2, h3, h4]

lemma syncAll_conn_eq (env : ParseEnv) (conn : Connection) (now : Nat)
    (remote : RemoteData) (db : SyncDb) :
    (syncAll env conn now remote db).conn =
      { conn with
        last_sync_at := some now
        last_sync_status := some (statusOf (syncAll env conn now remote db).results)
        last_sync_error := errorOf (syncAll env conn now remote db).results } := by
  by_cases h1 : conn.sync_customers <;> by_cases h2 : conn.sync_invoices <;>
    by_cases h3 : conn.sync_quotes <;> by_cases h4 : conn.sync_subscriptions <;>
      simp [syncAll, statusOf, errorOf, h1, h2, h3, h4]

lemma mem_if_singleton {α : Type} {b : Prop} [Decidable b] {x y : α}
    (h : y ∈ (if b then [x] else [])) : y = x := by
  split at h
  · simpa using h
  · simp at h

/-- Every entry of the orchestrator's result map is a per-kind sync result,
hence successful iff its error list is empty. -/
lemma syncAll_results_success_iff (env : ParseEnv) (conn : Connection) (now : Nat)
    (remote : RemoteData) (db : SyncDb) :
    ∀ kr ∈ (syncAll env conn now remote db).results,
      (kr.2.success = true ↔ kr.2.errors = []) := by
  intro kr hkr
  rw [syncAll_results_eq] at hkr
  simp only [List.mem_append] at hkr
  rcases hkr with ((h | h) | h) | h <;>
    (rw [mem_if_singleton h]; exact syncEntity_success_iff _ _ _)

lemma aggregateErrors_acc {L : List (String × SyncResult)} :
    ∀ acc : List String,
      L.foldl (fun acc kr => if kr.2.success then acc else acc ++ kr.2.errors) acc =
        acc ++ aggregateErrors L := by
  induction L with
  | nil => intro acc; simp [aggregateErrors]
  | cons kr t ih =>
      intro acc
      simp only [aggregateErrors, List.foldl_cons]
      by_cases hs : kr.2.success
      · simp only [hs, if_true]
        rw [ih, ih]
        simp
      · simp only [hs, if_false]
        rw [ih, ih]
        simp

lemma aggregateErrors_cons (kr : String × SyncResult) (t : List (String × SyncResult)) :
    aggregateErrors (kr :: t) =
      (if kr.2.success then [] else kr.2.errors) ++ aggregateErrors t := by
  simp only [aggregateErrors, List.foldl_cons]
  by_cases hs : kr.2.success <;> simp [hs, aggregateErrors_acc]

lemma aggregateErrors_eq_flatten (L : List (String × SyncResult))
    (h : ∀ kr ∈ L, kr.2.success = true → kr.2.errors = []) :
    aggregateErrors L = (L.map (fun kr => kr.2.errors)).flatten := by
  induction L with
  | nil => simp [aggregateErrors]
  | cons kr t ih =>
      have hkr := h kr (by simp)
      have ht : ∀ x ∈ t, x.2.success = true → x.2.errors = [] :=
        fun x hx => h x (List.mem_cons_of_mem _ hx)
      rw [aggregateErrors_cons]
      simp only [List.map_cons, List.flatten_cons]
      by_cases hs : kr.2.success = true
      · rw [hkr hs, ih ht]
        simp [hs]
      · have hs' : kr.2.success = false := by simpa using hs
        rw [ih ht]
        simp [hs']

lemma aggregateErrors_ne_nil {L : List (String × SyncResult)} {kr : String × SyncResult}
    (hmem : kr ∈ L) (hs : kr.2.success = false) (he : kr.2.errors ≠ []) :
    aggregateErrors L ≠ [] := by
  induction L with
  | nil => simp at hmem
  | cons x t ih =>
      rw [aggregateErrors_cons]
      rcases List.mem_cons.mp hmem with rfl | hmem'
      · simp [hs, he]
      · intro hcontra
        rcases List.append_eq_nil.mp hcontra with ⟨_, h2⟩
        exact ih hmem' h2

/-! ## C2: status aggregation -/

/-- C2: after a `sync_all` run the connection's status fields hold the run's
aggregate: `last_sync_at` is the run time; the status is `"success"` when
every entry of the result map succeeded and `"partial"` when at least one
entry failed (the map is then non-empty, a kind having run); every enabled
kind contributes an entry to the map, so the map cannot be empty while
kinds are enabled; and `last_sync_error` is the newline-join of every error
string across all kinds, or null when there are none.  (The embedding is
total, so the exception route to `"failed"` has no reachable trigger.) -/
theorem c2_status_aggregation (env : ParseEnv) (conn : Connection) (now : Nat)
    (remote : RemoteData) (db : SyncDb) :
    (syncAll env conn now remote db).conn.last_sync_at = some now ∧
    ((∀ kr ∈ (syncAll env conn now remote db).results, kr.2.success = true) →
      (syncAll env conn now remote db).conn.last_sync_status = some "success") ∧
    ((∃ kr ∈ (syncAll env conn now remote db).results, kr.2.success = false) →
      (syncAll env conn now remote db).conn.last_sync_status = some "partial") ∧
    (conn.sync_customers = true →
      "customers" ∈ (syncAll env conn now remote db).results.map Prod.fst) ∧
    (conn.sync_invoices = true →
      "invoices" ∈ (syncAll env conn now remote db).results.map Prod.fst) ∧
    (conn.sync_quotes = true →
      "quotes" ∈ (syncAll env conn now remote db).results.map Prod.fst) ∧
    (conn.sync_subscriptions = true →
      "subscriptions" ∈ (syncAll env conn now remote db).results.map Prod.fst) ∧
    (syncAll env conn now remote db).conn.last_sync_error =
      (if (((syncAll env conn now remote db).results.map (fun kr => kr.2.errors)).flatten).isEmpty
       then none
       else some (String.intercalate "\n"
          (((syncAll env conn now remote db).results.map (fun kr => kr.2.errors)).flatten))) := by
  have hagg : aggregateErrors (syncAll env conn now remote db).results =
      (((syncAll env conn now remote db).results.map (fun kr => kr.2.errors)).flatten) :=
    aggregateErrors_eq_flatten _
      (fun kr hkr => (syncAll_results_success_iff env conn now remote db kr hkr).mp)
  refine ⟨?_, ?_, ?_, ?_, ?_, ?_, ?_, ?_⟩
  · rw [syncAll_conn_eq]
  · intro h
    rw [syncAll_conn_eq]
    simp only [statusOf, List.all_eq_true]
    rw [if_pos (fun kr hkr => by simpa using h kr hkr)]
  · rintro ⟨kr, hkr, hfail⟩
    rw [syncAll_conn_eq]
    simp only [statusOf]
    rw [if_neg, if_neg]
    · intro hemp
      rw [List.isEmpty_iff] at hemp
      rw [hemp] at hkr
      simp at hkr
    · simp only [List.all_eq_true]
      intro hall
      have := hall kr hkr
      rw [hfail] at this
      simp at this
  · intro h
    rw [syncAll_results_eq]
    simp [h]
  · intro h
    rw [syncAll_results_eq]
    simp [h]
  · intro h
    rw [syncAll_results_eq]
    simp [h]
  · intro h
    rw [syncAll_results_eq]
    simp [h]
  · rw [syncAll_conn_eq]
    simp only [errorOf, hagg]

def c2conn : Connection :=
  { id := 3, name := "tenant", sync_customers := true, sync_invoices := false,
    sync_quotes := false, sync_subscriptions := false }

def c2remote : RemoteData :=
  { customers := ([{ id := some "c1", name := some "Acme" }], none) }

theorem c2_status_aggregation_witness :
    (syncAll trivEnv c2conn 5 c2remote {}).conn.last_sync_status = some "success" ∧
    (syncAll trivEnv c2conn 5 c2remote {}).conn.last_sync_at = some 5 ∧
    "customers" ∈ (syncAll trivEnv c2conn 5 c2remote {}).results.map Prod.fst := by
  have h := c2_status_aggregation trivEnv c2conn 5 c2remote {}
  exact ⟨h.2.1 (by decide), h.1, h.2.2.2.1 rfl⟩

/-! ## C3: AuthError abort scope -/

def c3conn : Connection :=
  { id := 1, name := "acme", sync_customers := true, sync_invoices := true,
    sync_quotes := false, sync_subscriptions := false }

def c3remote : RemoteData :=
  { customers := ([], some (.auth "Authentication failed: bad token" 401))
    invoices := ([], some (.auth "Authentication failed: bad token" 401)) }

/-- C3 counterexample: the claim says an AuthError aborts the connection's
sync immediately, no entity kind after the failure being fetched, the
orchestrator converting the error.  In the source each `sync_<kind>` method
catches `PennylaneAPIError` itself (line 653), so after customers fail with
an auth error `sync_all` still invokes `sync_invoices`, which fetches the
invoice endpoint and records its own auth error: the result map contains an
`"invoices"` entry with an API error, refuting the immediate abort. -/
theorem c3_abort_scope_counterexample :
    (syncAll trivEnv c3conn 0 c3remote {}).results.map Prod.fst = ["customers", "invoices"] ∧
    ((syncAll trivEnv c3conn 0 c3remote {}).results.getD 1 ("", initResult "")).2.errors =
      ["API error during invoice sync: PennylaneAuthError: Authentication failed: bad token"] ∧
    (syncAll trivEnv c3conn 0 c3remote {}).conn.last_sync_status = some "partial" := by
  decide

/-- C3 (amended): an AuthError raised during an entity kind's sync is caught
by that kind's syncer — not the orchestrator — and recorded as an error
string on that kind's SyncResult (success false), with that kind's writes
rolled back; subsequent enabled kinds are still attempted; the orchestrator
then aggregates the recorded errors into the connection's status
(`"partial"`, some kind having run) and non-null error text, and no
exception propagates (the embedding is total). -/
theorem c3_auth_abort_amended (env : ParseEnv) (conn : Connection) (now : Nat)
    (remote : RemoteData) (db : SyncDb) (m : String) (sc : Nat)
    (hc : conn.sync_customers = true) (hi : conn.sync_invoices = true)
    (he : remote.customers.2 = some (.auth m sc)) :
    (∃ rc, ("customers", rc) ∈ (syncAll env conn now remote db).results ∧
      rc.success = false ∧
      ("API error during customer sync: PennylaneAuthError: " ++ m) ∈ rc.errors) ∧
    "invoices" ∈ (syncAll env conn now remote db).results.map Prod.fst ∧
    (syncAll env conn now remote db).conn.last_sync_status = some "partial" ∧
    (syncAll env conn now remote db).conn.last_sync_error ≠ none ∧
    (syncAll env conn now remote db).db.customers = db.customers := by
  have hfetch : syncEntity (customerOps env conn.id now) remote.customers db.customers
      = ((syncRecords (customerOps env conn.id now) remote.customers.1 db.customers).1.addError
          ("API error during customer sync: " ++ (ApiError.auth m sc).toStr), db.customers) := by
    unfold syncEntity
    rw [he]
    exact rfl
  have hmem : ("customers",
      (syncEntity (customerOps env conn.id now) remote.customers db.customers).1)
      ∈ (syncAll env conn now remote db).results := by
    rw [syncAll_results_eq]
    simp [hc]
  have hfail : (syncEntity (customerOps env conn.id now) remote.customers db.customers).1.success
      = false := by
    rw [hfetch]
    exact rfl
  have herrne : (syncEntity (customerOps env conn.id now) remote.customers db.customers).1.errors
      ≠ [] := by
    rw [hfetch]
    simp [SyncResult.addError]
  have hall : (syncAll env conn now remote db).results.all (fun kr => kr.2.success) = false := by
    cases hball : (syncAll env conn now remote db).results.all (fun kr => kr.2.success) with
    | false => rfl
    | true =>
        have := List.all_eq_true.mp hball _ hmem
        rw [hfail] at this
        simp at this
  have hnonempty : (syncAll env conn now remote db).results.isEmpty = false := by
    cases hbe : (syncAll env conn now remote db).results.isEmpty with
    | false => rfl
    | true =>
        rw [List.isEmpty_iff] at hbe
        rw [hbe] at hmem
        simp at hmem
  refine ⟨⟨(syncEntity (customerOps env conn.id now) remote.customers db.customers).1,
      hmem, hfail, ?_⟩, ?_, ?_, ?_, ?_⟩
  · rw [hfetch]
    simp only [SyncResult.addError, ApiError.toStr]
    have hstr : "API error during customer sync: " ++ ("PennylaneAuthError: " ++ m)
        = "API error during customer sync: PennylaneAuthError: " ++ m := by
      rw [← String.append_assoc]
      exact rfl
    rw [← hstr]
    simp
  · rw [syncAll_results_eq]
    simp [hc, hi]
  · rw [syncAll_conn_eq]
    simp [statusOf, hall, hnonempty]
  · rw [syncAll_conn_eq]
    have h3 := aggregateErrors_ne_nil hmem hfail herrne
    simp only [errorOf]
    rw [if_neg (by simpa [List.isEmpty_iff] using h3)]
    simp
  · rw [syncAll_db_eq]
    show customersAfter env conn now remote db = db.customers
    rw [customersAfter, if_pos hc, hfetch]

theorem c3_auth_abort_amended_witness :
    "invoices" ∈ ((syncAll trivEnv c3conn 0 c3remote {}).results.map Prod.fst) ∧
    (syncAll trivEnv c3conn 0 c3remote {}).conn.last_sync_status = some "partial" ∧
    (syncAll trivEnv c3conn 0 c3remote {}).db.customers = [] := by
  have h := c3_auth_abort_amended trivEnv c3conn 0 c3remote {}
    "Authentication failed: bad token" 401 rfl rfl rfl
  exact ⟨h.2.1, h.2.2.1, h.2.2.2.2⟩

/-! ## C1: idempotence machinery

The heart of the idempotence claim: re-running the per-record upsert loop
on its own output changes nothing.  The lemmas below are generic in the
entity kind (via `EntityOps` / `EntityLaws`). -/

lemma runDb_cons {ρ σ : Type} (E : EntityOps ρ σ) (r : ρ) (t : List ρ) (db : List σ) :
    runDb E (r :: t) db = runDb E t (dbStep E r db) := rfl

lemma upsertRow_no_match {σ : Type} (P : σ → Bool) (upd : σ → σ) (v : σ)
    (db : List σ) (h : ∀ x ∈ db, P x = false) :
    upsertRow P upd v db = (false, db ++ [v]) := by
  induction db with
  | nil => rfl
  | cons x xs ih =>
      have hx : P x = false := h x (by simp)
      simp [upsertRow, hx, ih (fun y hy => h y (by simp [hy]))]

lemma upsertRow_first {σ : Type} (P : σ → Bool) (upd : σ → σ) (v : σ)
    (a : List σ) (x : σ) (b : List σ)
    (ha : ∀ y ∈ a, P y = false) (hx : P x = true) :
    upsertRow P upd v (a ++ x :: b) = (true, a ++ upd x :: b) := by
  induction a with
  | nil => simp [upsertRow, hx]
  | cons z zs ih =>
      have hz : P z = false := ha z (by simp)
      simp [upsertRow, hz, ih (fun y hy => ha y (by simp [hy]))]

lemma upsertRow_fst_of_any {σ : Type} (P : σ → Bool) (upd : σ → σ) (v : σ)
    (db : List σ) (h : db.any P = true) : (upsertRow P upd v db).1 = true := by
  induction db with
  | nil => simp at h
  | cons x xs ih =>
      by_cases hx : P x = true
      · simp [upsertRow, hx]
      · have hx' : P x = false := by simpa using hx
        have h' : xs.any P = true := by simpa [hx'] using h
        simp [upsertRow, hx', ih h']

lemma exists_first_decomp {σ : Type} (P : σ → Bool) (db : List σ) (h : db.any P = true) :
    ∃ a x b, db = a ++ x :: b ∧ P x = true ∧ ∀ y ∈ a, P y = false := by
  induction db with
  | nil => simp at h
  | cons z zs ih =>
      by_cases hz : P z = true
      · exact ⟨[], z, zs, by simp, hz, by simp⟩
      · have hz' : P z = false := by simpa using hz
        have h' : zs.any P = true := by simpa [hz'] using h
        obtain ⟨a, x, b, heq, hx, ha⟩ := ih h'
        refine ⟨z :: a, x, b, by simp [heq], hx, ?_⟩
        intro y hy
        rcases List.mem_cons.mp hy with rfl | hy'
        · exact hz'
        · exact ha y hy'

/-- Whether some stored row already carries the key `(connId, k)`. -/
def hasMatch {ρ σ : Type} (E : EntityOps ρ σ) (k : String) (db : List σ) : Bool :=
  db.any (rowMatches E k)

/-- The first `(connId, k)`-matching row of `d` is `v` (with a clean prefix). -/
def FirstAt {ρ σ : Type} (E : EntityOps ρ σ) (k : String) (v : σ) (d : List σ) : Prop :=
  ∃ a b, d = a ++ v :: b ∧ rowMatches E k v = true ∧ ∀ y ∈ a, rowMatches E k y = false

lemma hasMatch_false_forall {ρ σ : Type} {E : EntityOps ρ σ} {k : String} {db : List σ}
    (h : hasMatch E k db = false) : ∀ x ∈ db, rowMatches E k x = false := by
  intro x hx
  have := List.any_eq_false.mp (by simpa [hasMatch] using h) x hx
  simpa using this

lemma matched_conn {ρ σ : Type} {E : EntityOps ρ σ} {k : String} {x : σ}
    (hm : rowMatches E k x = true) : E.connOf x = E.connId ∧ E.pidOf x = k := by
  simpa [rowMatches] using hm

lemma rowMatches_mkRow {ρ σ : Type} {E : EntityOps ρ σ} (L : EntityLaws E) (r : ρ) :
    rowMatches E (E.keyOf r) (E.mkRow r) = true := by
  simp [rowMatches, L.conn_mk, L.pid_mk]

lemma rowMatches_ne {ρ σ : Type} {E : EntityOps ρ σ} {k0 k1 : String} {x : σ}
    (hm : rowMatches E k0 x = true) (hne : k1 ≠ k0) : rowMatches E k1 x = false := by
  obtain ⟨h1, h2⟩ := matched_conn hm
  simp [rowMatches, h1, h2]
  intro hh
  exact absurd hh.symm hne

lemma updRow_of_matched {ρ σ : Type} {E : EntityOps ρ σ} (L : EntityLaws E)
    {k : String} {x : σ} (hm : rowMatches E k x = true) (r : ρ) :
    E.updRow x (E.mkRow r) = E.mkRow r := by
  apply L.upd_eq
  rw [(matched_conn hm).1, L.conn_mk]

lemma dbStep_bad {ρ σ : Type} (E : EntityOps ρ σ) (r : ρ)
    (h : (E.keyOf r).isEmpty = true) (db : List σ) : dbStep E r db = db := by
  simp [dbStep, h]

lemma dbStep_no_match {ρ σ : Type} {E : EntityOps ρ σ} (L : EntityLaws E) (r : ρ)
    (db : List σ) (hk : (E.keyOf r).isEmpty = false)
    (h : hasMatch E (E.keyOf r) db = false) :
    dbStep E r db = db ++ [E.mkRow r] := by
  rw [dbStep, if_neg (by simp [hk])]
  rw [upsertRow_no_match _ _ _ _ (hasMatch_false_forall h)]

lemma dbStep_first {ρ σ : Type} {E : EntityOps ρ σ} (L : EntityLaws E) (r : ρ)
    (a : List σ) (x : σ) (b : List σ) (hk : (E.keyOf r).isEmpty = false)
    (ha : ∀ y ∈ a, rowMatches E (E.keyOf r) y = false)
    (hx : rowMatches E (E.keyOf r) x = true) :
    dbStep E r (a ++ x :: b) = a ++ E.mkRow r :: b := by
  rw [dbStep, if_neg (by simp [hk])]
  rw [upsertRow_first _ _ _ a x b ha hx]
  rw [updRow_of_matched L hx]

lemma firstAt_hasMatch {ρ σ : Type} {E : EntityOps ρ σ} {k : String} {v : σ} {d : List σ}
    (h : FirstAt E k v d) : hasMatch E k d = true := by
  obtain ⟨a, b, rfl, hv, _⟩ := h
  simp [hasMatch, List.any_append, List.any_cons, hv]

lemma firstAt_dbStep_self {ρ σ : Type} {E : EntityOps ρ σ} (L : EntityLaws E) (r : ρ)
    (db : List σ) (hk : (E.keyOf r).isEmpty = false) :
    FirstAt E (E.keyOf r) (E.mkRow r) (dbStep E r db) := by
  cases hm : hasMatch E (E.keyOf r) db with
  | false =>
      rw [dbStep_no_match L r db hk hm]
      exact ⟨db, [], rfl, rowMatches_mkRow L r, hasMatch_false_forall hm⟩
  | true =>
      obtain ⟨a, x, b, heq, hx, ha⟩ := exists_first_decomp _ db (by simpa [hasMatch] using hm)
      rw [heq, dbStep_first L r a x b hk ha hx]
      exact ⟨a, b, rfl, rowMatches_mkRow L r, ha⟩

lemma hasMatch_dbStep {ρ σ : Type} {E : EntityOps ρ σ} (L : EntityLaws E) (k : String)
    (r' : ρ) (db : List σ) (h : hasMatch E k db = true) :
    hasMatch E k (dbStep E r' db) = true := by
  by_cases hb : (E.keyOf r').isEmpty = true
  · rw [dbStep_bad E r' hb]; exact h
  · have hk' : (E.keyOf r').isEmpty = false := by simpa using hb
    cases hm : hasMatch E (E.keyOf r') db with
    | false =>
        rw [dbStep_no_match L r' db hk' hm]
        simp only [hasMatch, List.any_append] at h ⊢
        simp [h]
    | true =>
        obtain ⟨a, x, b, heq, hx, ha⟩ :=
          exists_first_decomp _ db (by simpa [hasMatch] using hm)
        subst heq
        rw [dbStep_first L r' a x b hk' ha hx]
        simp only [hasMatch, List.any_append, List.any_cons, Bool.or_eq_true] at h ⊢
        rcases h with h | h | h
        · exact Or.inl h
        · refine Or.inr (Or.inl ?_)
          have h1 := matched_conn hx
          have h2 := matched_conn h
          have hkk : k = E.keyOf r' := by rw [← h2.2, h1.2]
          rw [hkk]
          exact rowMatches_mkRow L r'
        · exact Or.inr (Or.inr h)

lemma hasMatch_runDb {ρ σ : Type} {E : EntityOps ρ σ} (L : EntityLaws E) (k : String)
    (t : List ρ) : ∀ db, hasMatch E k db = true → hasMatch E k (runDb E t db) = true := by
  induction t with
  | nil => intro db h; exact h
  | cons r t ih =>
      intro db h
      rw [runDb_cons]
      exact ih _ (hasMatch_dbStep L k r db h)

lemma dbStep_absorb {ρ σ : Type} {E : EntityOps ρ σ} (L : EntityLaws E) (r : ρ)
    (d : List σ) (hk : (E.keyOf r).isEmpty = false)
    (hF : FirstAt E (E.keyOf r) (E.mkRow r) d) : dbStep E r d = d := by
  obtain ⟨a, b, heq, hv, ha⟩ := hF
  rw [heq, dbStep_first L r a _ b hk ha hv]

/-- A step for a record whose key is missing or differs from `k` leaves the
first `(connId, k)` row where it is, with its value. -/
lemma firstAt_dbStep_other {ρ σ : Type} {E : EntityOps ρ σ} (L : EntityLaws E)
    {k : String} {v : σ} (r' : ρ) (d : List σ) (hF : FirstAt E k v d)
    (hne : (E.keyOf r').isEmpty = true ∨ E.keyOf r' ≠ k) :
    FirstAt E k v (dbStep E r' d) := by
  obtain ⟨a, b, rfl, hv, ha⟩ := hF
  by_cases hbad : (E.keyOf r').isEmpty = true
  · rw [dbStep_bad E r' hbad]; exact ⟨a, b, rfl, hv, ha⟩
  · have hkgood : (E.keyOf r').isEmpty = false := by simpa using hbad
    have hk' : E.keyOf r' ≠ k := by
      rcases hne with hb | hk'
      · exact absurd hb hbad
      · exact hk'
    have hvno : rowMatches E (E.keyOf r') v = false := rowMatches_ne hv hk'
    cases hma : a.any (rowMatches E (E.keyOf r')) with
    | true =>
        obtain ⟨a0, z, a1, haeq, hz, ha0⟩ := exists_first_decomp _ a hma
        subst haeq
        have hassoc : (a0 ++ z :: a1) ++ v :: b = a0 ++ z :: (a1 ++ v :: b) := by simp
        rw [hassoc, dbStep_first L r' a0 z (a1 ++ v :: b) hkgood ha0 hz]
        refine ⟨a0 ++ E.mkRow r' :: a1, b, by simp, hv, ?_⟩
        intro y hy
        rcases List.mem_append.mp hy with hy0 | hy1
        · exact ha y (by simp [hy0])
        · rcases List.mem_cons.mp hy1 with rfl | hy2
          · exact rowMatches_ne (rowMatches_mkRow L r') (Ne.symm hk')
          · exact ha y (by simp [hy2])
    | false =>
        cases hmb : b.any (rowMatches E (E.keyOf r')) with
        | true =>
            obtain ⟨b0, z, b1, hbeq, hz, hb0⟩ := exists_first_decomp _ b hmb
            subst hbeq
            have hassoc : a ++ v :: (b0 ++ z :: b1) = (a ++ v :: b0) ++ z :: b1 := by simp
            have hpre : ∀ y ∈ a ++ v :: b0, rowMatches E (E.keyOf r') y = false := by
              intro y hy
              rcases List.mem_append.mp hy with hy0 | hy1
              · have := List.any_eq_false.mp hma y hy0
                simpa using this
              · rcases List.mem_cons.mp hy1 with rfl | hy2
                · exact hvno
                · exact hb0 y hy2
            rw [hassoc, dbStep_first L r' (a ++ v :: b0) z b1 hkgood hpre hz]
            refine ⟨a, b0 ++ E.mkRow r' :: b1, by simp, hv, ha⟩
        | false =>
            have hnom : hasMatch E (E.keyOf r') (a ++ v :: b) = false := by
              simp only [hasMatch, List.any_append, List.any_cons]
              simp [hma, hvno, hmb]
            rw [dbStep_no_match L r' _ hkgood hnom]
            exact ⟨a, b ++ [E.mkRow r'], by simp, hv, ha⟩

lemma firstAt_runDb_other {ρ σ : Type} {E : EntityOps ρ σ} (L : EntityLaws E)
    {k : String} {v : σ} (t : List ρ) :
    ∀ d, FirstAt E k v d →
      (∀ r' ∈ t, (E.keyOf r').isEmpty = true ∨ E.keyOf r' ≠ k) →
      FirstAt E k v (runDb E t d) := by
  induction t with
  | nil => intro d hF _; exact hF
  | cons r t ih =>
      intro d hF hother
      rw [runDb_cons]
      exact ih _ (firstAt_dbStep_other L r d hF (hother r (by simp)))
        (fun r' hr' => hother r' (by simp [hr']))

/-- Two tables that agree except at the first `(connId, k)` row. -/
def Diff1 {ρ σ : Type} (E : EntityOps ρ σ) (k : String) (d1 d2 : List σ) : Prop :=
  ∃ a x y b, d1 = a ++ x :: b ∧ d2 = a ++ y :: b ∧
    rowMatches E k x = true ∧ rowMatches E k y = true ∧
    ∀ z ∈ a, rowMatches E k z = false

/-- A step for a different key acts identically on the two sides of a
`Diff1` pair, preserving the difference shape. -/
lemma dbStep_diff {ρ σ : Type} {E : EntityOps ρ σ} (L : EntityLaws E) {k : String}
    (r' : ρ) (a : List σ) (x y : σ) (b : List σ)
    (hx : rowMatches E k x = true) (hy : rowMatches E k y = true)
    (ha : ∀ z ∈ a, rowMatches E k z = false)
    (hg : (E.keyOf r').isEmpty = false) (hne : E.keyOf r' ≠ k) :
    ∃ a' b', dbStep E r' (a ++ x :: b) = a' ++ x :: b' ∧
      dbStep E r' (a ++ y :: b) = a' ++ y :: b' ∧
      ∀ z ∈ a', rowMatches E k z = false := by
  have hxno : rowMatches E (E.keyOf r') x = false := rowMatches_ne hx hne
  have hyno : rowMatches E (E.keyOf r') y = false := rowMatches_ne hy hne
  cases hma : a.any (rowMatches E (E.keyOf r')) with
  | true =>
      obtain ⟨a0, z, a1, haeq, hz, ha0⟩ := exists_first_decomp _ a hma
      subst haeq
      have hx1 : (a0 ++ z :: a1) ++ x :: b = a0 ++ z :: (a1 ++ x :: b) := by simp
      have hy1 : (a0 ++ z :: a1) ++ y :: b = a0 ++ z :: (a1 ++ y :: b) := by simp
      refine ⟨a0 ++ E.mkRow r' :: a1, b, ?_, ?_, ?_⟩
      · rw [hx1, dbStep_first L r' a0 z (a1 ++ x :: b) hg ha0 hz]; simp
      · rw [hy1, dbStep_first L r' a0 z (a1 ++ y :: b) hg ha0 hz]; simp
      · intro w hw
        rcases List.mem_append.mp hw with hw0 | hw1
        · exact ha w (by simp [hw0])
        · rcases List.mem_cons.mp hw1 with rfl | hw2
          · exact rowMatches_ne (rowMatches_mkRow L r') (Ne.symm hne)
          · exact ha w (by simp [hw2])
  | false =>
      have hano : ∀ w ∈ a, rowMatches E (E.keyOf r') w = false := by
        intro w hw
        have := List.any_eq_false.mp hma w hw
        simpa using this
      cases hmb : b.any (rowMatches E (E.keyOf r')) with
      | true =>
          obtain ⟨b0, z, b1, hbeq, hz, hb0⟩ := exists_first_decomp _ b hmb
          subst hbeq
          have hprex : ∀ w ∈ a ++ x :: b0, rowMatches E (E.keyOf r') w = false := by
            intro w hw
            rcases List.mem_append.mp hw with hw0 | hw1
            · exact hano w hw0
            · rcases List.mem_cons.mp hw1 with rfl | hw2
              · exact hxno
              · exact hb0 w hw2
          have hprey : ∀ w ∈ a ++ y :: b0, rowMatches E (E.keyOf r') w = false := by
            intro w hw
            rcases List.mem_append.mp hw with hw0 | hw1
            · exact hano w hw0
            · rcases List.mem_cons.mp hw1 with rfl | hw2
              · exact hyno
              · exact hb0 w hw2
          refine ⟨a, b0 ++ E.mkRow r' :: b1, ?_, ?_, ha⟩
          · rw [show a ++ x :: (b0 ++ z :: b1) = (a ++ x :: b0) ++ z :: b1 by simp,
              dbStep_first L r' (a ++ x :: b0) z b1 hg hprex hz]
            simp
          · rw [show a ++ y :: (b0 ++ z :: b1) = (a ++ y :: b0) ++ z :: b1 by simp,
              dbStep_first L r' (a ++ y :: b0) z b1 hg hprey hz]
            simp
      | false =>
          have hnomx : hasMatch E (E.keyOf r') (a ++ x :: b) = false := by
            simp only [hasMatch, List.any_append, List.any_cons]
            simp [hma, hxno, hmb]
          have hnomy : hasMatch E (E.keyOf r') (a ++ y :: b) = false := by
            simp only [hasMatch, List.any_append, List.any_cons]
            simp [hma, hyno, hmb]
          refine ⟨a, b ++ [E.mkRow r'], ?_, ?_, ha⟩
          · rw [dbStep_no_match L r' _ hg hnomx]; simp
          · rw [dbStep_no_match L r' _ hg hnomy]; simp

/-- Running the rest of the batch washes out a difference at the first
`(connId, k)` row, provided some later record carries key `k`. -/
lemma runDb_diff {ρ σ : Type} {E : EntityOps ρ σ} (L : EntityLaws E) (k : String)
    (t : List ρ) :
    ∀ d1 d2, Diff1 E k d1 d2 →
      (∃ r' ∈ t, (E.keyOf r').isEmpty = false ∧ E.keyOf r' = k) →
      runDb E t d1 = runDb E t d2 := by
  induction t with
  | nil =>
      rintro d1 d2 _ ⟨r', hr', _⟩
      simp at hr'
  | cons r0 t ih =>
      rintro d1 d2 hD hex
      obtain ⟨a, x, y, b, rfl, rfl, hx, hy, ha⟩ := hD
      by_cases hb0 : (E.keyOf r0).isEmpty = true
      · rw [runDb_cons, runDb_cons, dbStep_bad E r0 hb0, dbStep_bad E r0 hb0]
        apply ih _ _ ⟨a, x, y, b, rfl, rfl, hx, hy, ha⟩
        obtain ⟨r', hr', hg, hk⟩ := hex
        rcases List.mem_cons.mp hr' with rfl | hr''
        · rw [hb0] at hg; cases hg
        · exact ⟨r', hr'', hg, hk⟩
      · have hg0 : (E.keyOf r0).isEmpty = false := by simpa using hb0
        by_cases hk0 : E.keyOf r0 = k
        · subst hk0
          rw [runDb_cons, runDb_cons,
            dbStep_first L r0 a x b hg0 ha hx, dbStep_first L r0 a y b hg0 ha hy]
        · obtain ⟨a', b', e1, e2, ha'⟩ := dbStep_diff L r0 a x y b hx hy ha hg0 hk0
          rw [runDb_cons, runDb_cons, e1, e2]
          apply ih _ _ ⟨a', x, y, b', rfl, rfl, hx, hy, ha'⟩
          obtain ⟨r', hr', hg, hk⟩ := hex
          rcases List.mem_cons.mp hr' with rfl | hr''
          · exact absurd hk hk0
          · exact ⟨r', hr'', hg, hk⟩

/-- MAIN: the record loop is idempotent on the stored table once every
record carries an id. -/
lemma runDb_idem {ρ σ : Type} {E : EntityOps ρ σ} (L : EntityLaws E) (rs : List ρ) :
    ∀ db, (∀ r ∈ rs, (E.keyOf r).isEmpty = false) →
      runDb E rs (runDb E rs db) = runDb E rs db := by
  induction rs with
  | nil => intro db _; rfl
  | cons r t ih =>
      intro db hgood
      have hgr : (E.keyOf r).isEmpty = false := hgood r (by simp)
      have hgt : ∀ x ∈ t, (E.keyOf x).isEmpty = false := fun x hx => hgood x (by simp [hx])
      show runDb E t (dbStep E r (runDb E t (dbStep E r db))) = runDb E t (dbStep E r db)
      have hF1 : FirstAt E (E.keyOf r) (E.mkRow r) (dbStep E r db) :=
        firstAt_dbStep_self L r db hgr
      by_cases hex : ∃ r' ∈ t, (E.keyOf r').isEmpty = false ∧ E.keyOf r' = E.keyOf r
      · have hmD : hasMatch E (E.keyOf r) (runDb E t (dbStep E r db)) = true :=
          hasMatch_runDb L _ t _ (firstAt_hasMatch hF1)
        obtain ⟨a, x, b, hDeq, hx, ha⟩ :=
          exists_first_decomp _ _ (by simpa [hasMatch] using hmD)
        have hstep : dbStep E r (runDb E t (dbStep E r db)) = a ++ E.mkRow r :: b := by
          rw [hDeq]; exact dbStep_first L r a x b hgr ha hx
        have hdiff : Diff1 E (E.keyOf r) (a ++ E.mkRow r :: b) (a ++ x :: b) :=
          ⟨a, E.mkRow r, x, b, rfl, rfl, rowMatches_mkRow L r, hx, ha⟩
        calc runDb E t (dbStep E r (runDb E t (dbStep E r db)))
            = runDb E t (a ++ E.mkRow r :: b) := by rw [hstep]
          _ = runDb E t (a ++ x :: b) := runDb_diff L _ t _ _ hdiff hex
          _ = runDb E t (runDb E t (dbStep E r db)) := by rw [← hDeq]
          _ = runDb E t (dbStep E r db) := ih _ hgt
      · have hother : ∀ r' ∈ t, (E.keyOf r').isEmpty = true ∨ E.keyOf r' ≠ E.keyOf r := by
          intro r' hr'
          by_cases hb : (E.keyOf r').isEmpty = true
          · exact Or.inl hb
          · refine Or.inr ?_
            intro hkk
            exact hex ⟨r', hr', by simpa using hb, hkk⟩
        have hFD : FirstAt E (E.keyOf r) (E.mkRow r) (runDb E t (dbStep E r db)) :=
          firstAt_runDb_other L t _ hF1 hother
        rw [dbStep_absorb L r _ hgr hFD]
        exact ih _ hgt

/-! ### Second-run counters -/

lemma syncStep_good_match {ρ σ : Type} (E : EntityOps ρ σ) (st : SyncResult × List σ)
    (r : ρ) (hg : (E.keyOf r).isEmpty = false)
    (hm : hasMatch E (E.keyOf r) st.2 = true) :
    (syncStep E st r).1.created = st.1.created ∧
    (syncStep E st r).1.updated = st.1.updated + 1 ∧
    (syncStep E st r).1.success = st.1.success := by
  have hwas := upsertRow_fst_of_any (rowMatches E (E.keyOf r))
    (fun old => E.updRow old (E.mkRow r)) (E.mkRow r) st.2 (by simpa [hasMatch] using hm)
  simp [syncStep, hg, hwas]

lemma foldl_counts_all_matched {ρ σ : Type} {E : EntityOps ρ σ} (L : EntityLaws E)
    (rs : List ρ) :
    ∀ st : SyncResult × List σ,
      (∀ r ∈ rs, (E.keyOf r).isEmpty = false ∧ hasMatch E (E.keyOf r) st.2 = true) →
      (rs.foldl (syncStep E) st).1.created = st.1.created ∧
      (rs.foldl (syncStep E) st).1.updated = st.1.updated + rs.length ∧
      (rs.foldl (syncStep E) st).1.success = st.1.success := by
  induction rs with
  | nil => intro st _; simp
  | cons r t ih =>
      intro st h
      obtain ⟨hg, hm⟩ := h r (by simp)
      have hstep := syncStep_good_match E st r hg hm
      have hdb : (syncStep E st r).2 = dbStep E r st.2 := syncStep_db E st r
      have ht : ∀ r' ∈ t, (E.keyOf r').isEmpty = false ∧
          hasMatch E (E.keyOf r') (syncStep E st r).2 = true := by
        intro r' hr'
        obtain ⟨hg', hm'⟩ := h r' (by simp [hr'])
        refine ⟨hg', ?_⟩
        rw [hdb]
        exact hasMatch_dbStep L _ r _ hm'
      obtain ⟨ih1, ih2, ih3⟩ := ih (syncStep E st r) ht
      refine ⟨?_, ?_, ?_⟩
      · rw [List.foldl_cons, ih1, hstep.1]
      · rw [List.foldl_cons, ih2, hstep.2.1]
        simp [Nat.add_assoc, Nat.add_comm 1 t.length]
      · rw [List.foldl_cons, ih3, hstep.2.2]

lemma run_matches {ρ σ : Type} {E : EntityOps ρ σ} (L : EntityLaws E) (rs : List ρ) :
    ∀ db, (∀ r ∈ rs, (E.keyOf r).isEmpty = false) →
      ∀ r ∈ rs, hasMatch E (E.keyOf r) (runDb E rs db) = true := by
  induction rs with
  | nil => intro db _ r hr; simp at hr
  | cons r0 t ih =>
      intro db hgood r hr
      rw [runDb_cons]
      rcases List.mem_cons.mp hr with rfl | hr'
      · exact hasMatch_runDb L _ t _
          (firstAt_hasMatch (firstAt_dbStep_self L r db (hgood r (by simp))))
      · exact ih (dbStep E r0 db) (fun x hx => hgood x (by simp [hx])) r hr'

lemma syncEntity_none_db {ρ σ : Type} (E : EntityOps ρ σ) (rs : List ρ) (db : List σ) :
    (syncEntity E (rs, none) db).2 = runDb E rs db := by
  show (syncRecords E rs db).2 = runDb E rs db
  rw [syncRecords, foldl_syncStep_db]

lemma syncEntity_none_res {ρ σ : Type} (E : EntityOps ρ σ) (rs : List ρ) (db : List σ) :
    (syncEntity E (rs, none) db).1 = (rs.foldl (syncStep E) (initResult E.kindName, db)).1 :=
  rfl

/-- Per-kind round 2: running a kind's sync again on its own output, with
the same records, changes nothing and reports `created = 0`,
`updated = total_fetched`, success. -/
lemma syncEntity_round2 {ρ σ : Type} {E : EntityOps ρ σ} (L : EntityLaws E)
    (rs : List ρ) (db : List σ) (hg : ∀ r ∈ rs, (E.keyOf r).isEmpty = false) :
    (syncEntity E (rs, none) ((syncEntity E (rs, none) db).2)).2
        = (syncEntity E (rs, none) db).2 ∧
    (syncEntity E (rs, none) ((syncEntity E (rs, none) db).2)).1.created = 0 ∧
    (syncEntity E (rs, none) ((syncEntity E (rs, none) db).2)).1.updated
        = (syncEntity E (rs, none) ((syncEntity E (rs, none) db).2)).1.total_fetched ∧
    (syncEntity E (rs, none) ((syncEntity E (rs, none) db).2)).1.success = true := by
  have hdb1 : (syncEntity E (rs, none) db).2 = runDb E rs db := syncEntity_none_db E rs db
  have hm : ∀ r ∈ rs, hasMatch E (E.keyOf r) (runDb E rs db) = true := run_matches L rs db hg
  have hc := foldl_counts_all_matched L rs (initResult E.kindName, runDb E rs db)
    (fun r hr => ⟨hg r hr, hm r hr⟩)
  have hfetched := foldl_syncStep_fetched E rs (initResult E.kindName, runDb E rs db)
  refine ⟨?_, ?_, ?_, ?_⟩
  · rw [hdb1, syncEntity_none_db, runDb_idem L rs db hg]
  · rw [hdb1, syncEntity_none_res]
    rw [hc.1]
    rfl
  · rw [hdb1, syncEntity_none_res]
    rw [hc.2.1, hfetched]
    rfl
  · rw [hdb1, syncEntity_none_res]
    rw [hc.2.2]
    rfl

/-! ### The laws hold for all four kinds -/

lemma customerLaws (env : ParseEnv) (connId now : Nat) :
    EntityLaws (customerOps env connId now) := by
  refine ⟨fun r => rfl, fun r => rfl, fun old v => rfl, fun old v => rfl, ?_⟩
  intro old v h
  dsimp [customerOps] at h ⊢
  rw [h]

lemma invoiceLaws (env : ParseEnv) (connId : Nat) (lookup : String → Option String)
    (now : Nat) : EntityLaws (invoiceOps env connId lookup now) := by
  refine ⟨fun r => rfl, fun r => rfl, fun old v => rfl, fun old v => rfl, ?_⟩
  intro old v h
  dsimp [invoiceOps] at h ⊢
  rw [h]

lemma quoteLaws (env : ParseEnv) (connId : Nat) (lookup : String → Option String)
    (now : Nat) : EntityLaws (quoteOps env connId lookup now) := by
  refine ⟨fun r => rfl, fun r => rfl, fun old v => rfl, fun old v => rfl, ?_⟩
  intro old v h
  dsimp [quoteOps] at h ⊢
  rw [h]

lemma subscriptionLaws (env : ParseEnv) (connId : Nat) (lookup : String → Option String)
    (now : Nat) : EntityLaws (subscriptionOps env connId lookup now) := by
  refine ⟨fun r => rfl, fun r => rfl, fun old v => rfl, fun old v => rfl, ?_⟩
  intro old v h
  dsimp [subscriptionOps] at h ⊢
  rw [h]

lemma SyncDb.ext_components (A B : SyncDb) (h1 : A.customers = B.customers)
    (h2 : A.invoices = B.invoices) (h3 : A.quotes = B.quotes)
    (h4 : A.subscriptions = B.subscriptions) : A = B := by
  cases A; cases B; simp_all

/-- C1: idempotence of sync.  If a `sync_all` run over a remote dataset is
fully successful, then running `sync_all` again immediately afterwards
(same run timestamp, per the claim's "immediately after") with the remote
dataset unchanged leaves every SyncedEntity table exactly as it was — no
new rows, no field changes — and every enabled kind's second-run SyncResult
has `created = 0` and `updated = total_fetched`. -/
theorem c1_sync_idempotent (env : ParseEnv) (conn : Connection) (now : Nat)
    (remote : RemoteData) (db : SyncDb)
    (h : ∀ kr ∈ (syncAll env conn now remote db).results, kr.2.success = true) :
    (syncAll env (syncAll env conn now remote db).conn now remote
        (syncAll env conn now remote db).db).db = (syncAll env conn now remote db).db ∧
    ∀ kr ∈ (syncAll env (syncAll env conn now remote db).conn now remote
        (syncAll env conn now remote db).db).results,
      kr.2.created = 0 ∧ kr.2.updated = kr.2.total_fetched := by
  have hconn1 := syncAll_conn_eq env conn now remote db
  have hf1 : (syncAll env conn now remote db).conn.sync_customers = conn.sync_customers := by
    rw [hconn1]
  have hf2 : (syncAll env conn now remote db).conn.sync_invoices = conn.sync_invoices := by
    rw [hconn1]
  have hf3 : (syncAll env conn now remote db).conn.sync_quotes = conn.sync_quotes := by
    rw [hconn1]
  have hf4 : (syncAll env conn now remote db).conn.sync_subscriptions
      = conn.sync_subscriptions := by
    rw [hconn1]
  have hfid : (syncAll env conn now remote db).conn.id = conn.id := by
    rw [hconn1]
  have hdb1 := syncAll_db_eq env conn now remote db
  have ho1c : (syncAll env conn now remote db).db.customers
      = customersAfter env conn now remote db := by rw [hdb1]
  have ho1i : (syncAll env conn now remote db).db.invoices =
      (if conn.sync_invoices then
        (syncEntity (invoiceOps env conn.id (lookupAfter env conn now remote db) now)
          remote.invoices db.invoices).2
       else db.invoices) := by rw [hdb1]
  have ho1q : (syncAll env conn now remote db).db.quotes =
      (if conn.sync_quotes then
        (syncEntity (quoteOps env conn.id (lookupAfter env conn now remote db) now)
          remote.quotes db.quotes).2
       else db.quotes) := by rw [hdb1]
  have ho1s : (syncAll env conn now remote db).db.subscriptions =
      (if conn.sync_subscriptions then
        (syncEntity (subscriptionOps env conn.id (lookupAfter env conn now remote db) now)
          remote.subscriptions db.subscriptions).2
       else db.subscriptions) := by rw [hdb1]
  have hcust : conn.sync_customers = true → remote.customers.2 = none ∧
      ∀ r ∈ remote.customers.1, (customerKey r).isEmpty = false := by
    intro hc
    have hmem : ("customers",
        (syncEntity (customerOps env conn.id now) remote.customers db.customers).1)
        ∈ (syncAll env conn now remote db).results := by
      rw [syncAll_results_eq]; simp [hc]
    exact syncEntity_success_inv _ remote.customers.1 remote.customers.2 _ (h _ hmem)
  have hinv : conn.sync_invoices = true → remote.invoices.2 = none ∧
      ∀ r ∈ remote.invoices.1, (invoiceKey r).isEmpty = false := by
    intro hi
    have hmem : ("invoices",
        (syncEntity (invoiceOps env conn.id (lookupAfter env conn now remote db) now)
          remote.invoices db.invoices).1)
        ∈ (syncAll env conn now remote db).results := by
      rw [syncAll_results_eq]; simp [hi]
    exact syncEntity_success_inv _ remote.invoices.1 remote.invoices.2 _ (h _ hmem)
  have hquo : conn.sync_quotes = true → remote.quotes.2 = none ∧
      ∀ r ∈ remote.quotes.1, (quoteKey r).isEmpty = false := by
    intro hq
    have hmem : ("quotes",
        (syncEntity (quoteOps env conn.id (lookupAfter env conn now remote db) now)
          remote.quotes db.quotes).1)
        ∈ (syncAll env conn now remote db).results := by
      rw [syncAll_results_eq]; simp [hq]
    exact syncEntity_success_inv _ remote.quotes.1 remote.quotes.2 _ (h _ hmem)
  have hsub : conn.sync_subscriptions = true → remote.subscriptions.2 = none ∧
      ∀ r ∈ remote.subscriptions.1, (subscriptionKey r).isEmpty = false := by
    intro hs
    have hmem : ("subscriptions",
        (syncEntity (subscriptionOps env conn.id (lookupAfter env conn now remote db) now)
          remote.subscriptions db.subscriptions).1)
        ∈ (syncAll env conn now remote db).results := by
      rw [syncAll_results_eq]; simp [hs]
    exact syncEntity_success_inv _ remote.subscriptions.1 remote.subscriptions.2 _ (h _ hmem)
  -- the customers table is a fixed point of the second customers step
  have hstep2c : customersAfter env (syncAll env conn now remote db).conn now remote
      (syncAll env conn now remote db).db = (syncAll env conn now remote db).db.customers := by
    rw [customersAfter, hf1, hfid]
    by_cases hc : conn.sync_customers
    · obtain ⟨herr, hgood⟩ := hcust hc
      have hfeqc : ∀ X, syncEntity (customerOps env conn.id now) remote.customers X
          = syncEntity (customerOps env conn.id now)
              (remote.customers.1, (none : Option ApiError)) X := by
        intro X
        rw [← herr]
      rw [if_pos hc, ho1c, customersAfter, if_pos hc]
      simp only [hfeqc]
      exact (syncEntity_round2 (customerLaws env conn.id now)
        remote.customers.1 db.customers hgood).1
    · rw [if_neg hc]
  have hlook : lookupAfter env (syncAll env conn now remote db).conn now remote
      (syncAll env conn now remote db).db = lookupAfter env conn now remote db := by
    rw [lookupAfter, hstep2c, hfid, ho1c, lookupAfter]
  have hdb2 := syncAll_db_eq env (syncAll env conn now remote db).conn now remote
    (syncAll env conn now remote db).db
  constructor
  · apply SyncDb.ext_components
    · rw [hdb2]
      exact hstep2c
    · rw [hdb2]
      show (if (syncAll env conn now remote db).conn.sync_invoices then _ else _) = _
      rw [hf2, hfid, hlook]
      by_cases hi : conn.sync_invoices
      · obtain ⟨herr, hgood⟩ := hinv hi
        have hfeqi : ∀ X, syncEntity
            (invoiceOps env conn.id (lookupAfter env conn now remote db) now)
            remote.invoices X
            = syncEntity (invoiceOps env conn.id (lookupAfter env conn now remote db) now)
                (remote.invoices.1, (none : Option ApiError)) X := by
          intro X
          rw [← herr]
        rw [if_pos hi, ho1i, if_pos hi]
        simp only [hfeqi]
        exact (syncEntity_round2
          (invoiceLaws env conn.id (lookupAfter env conn now remote db) now)
          remote.invoices.1 db.invoices hgood).1
      · rw [if_neg hi]
    · rw [hdb2]
      show (if (syncAll env conn now remote db).conn.sync_quotes then _ else _) = _
      rw [hf3, hfid, hlook]
      by_cases hq : conn.sync_quotes
      · obtain ⟨herr, hgood⟩ := hquo hq
        have hfeqq : ∀ X, syncEntity
            (quoteOps env conn.id (lookupAfter env conn now remote db) now)
            remote.quotes X
            = syncEntity (quoteOps env conn.id (lookupAfter env conn now remote db) now)
                (remote.quotes.1, (none : Option ApiError)) X := by
          intro X
          rw [← herr]
        rw [if_pos hq, ho1q, if_pos hq]
        simp only [hfeqq]
        exact (syncEntity_round2
          (quoteLaws env conn.id (lookupAfter env conn now remote db) now)
          remote.quotes.1 db.quotes hgood).1
      · rw [if_neg hq]
    · rw [hdb2]
      show (if (syncAll env conn now remote db).conn.sync_subscriptions then _ else _) = _
      rw [hf4, hfid, hlook]
      by_cases hs : conn.sync_subscriptions
      · obtain ⟨herr, hgood⟩ := hsub hs
        have hfeqs : ∀ X, syncEntity
            (subscriptionOps env conn.id (lookupAfter env conn now remote db) now)
            remote.subscriptions X
            = syncEntity
                (subscriptionOps env conn.id (lookupAfter env conn now remote db) now)
                (remote.subscriptions.1, (none : Option ApiError)) X := by
          intro X
          rw [← herr]
        rw [if_pos hs, ho1s, if_pos hs]
        simp only [hfeqs]
        exact (syncEntity_round2
          (subscriptionLaws env conn.id (lookupAfter env conn now remote db) now)
          remote.subscriptions.1 db.subscriptions hgood).1
      · rw [if_neg hs]
  · intro kr hkr
    rw [syncAll_results_eq, hf1, hf2, hf3, hf4, hfid, hlook] at hkr
    simp only [List.mem_append] at hkr
    rcases hkr with ((hk | hk) | hk) | hk
    · by_cases hc : conn.sync_customers
      · rw [if_pos hc] at hk
        obtain ⟨herr, hgood⟩ := hcust hc
        have hfeqc : ∀ X, syncEntity (customerOps env conn.id now) remote.customers X
            = syncEntity (customerOps env conn.id now)
                (remote.customers.1, (none : Option ApiError)) X := by
          intro X
          rw [← herr]
        rw [List.mem_singleton] at hk
        subst hk
        show (syncEntity (customerOps env conn.id now) remote.customers
            (syncAll env conn now remote db).db.customers).1.created = 0 ∧ _
        rw [ho1c, customersAfter, if_pos hc]
        simp only [hfeqc]
        have hr2 := syncEntity_round2 (customerLaws env conn.id now)
          remote.customers.1 db.customers hgood
        exact ⟨hr2.2.1, hr2.2.2.1⟩
      · rw [if_neg hc] at hk
        simp at hk
    · by_cases hi : conn.sync_invoices
      · rw [if_pos hi] at hk
        obtain ⟨herr, hgood⟩ := hinv hi
        have hfeqi : ∀ X, syncEntity
            (invoiceOps env conn.id (lookupAfter env conn now remote db) now)
            remote.invoices X
            = syncEntity (invoiceOps env conn.id (lookupAfter env conn now remote db) now)
                (remote.invoices.1, (none : Option ApiError)) X := by
          intro X
          rw [← herr]
        rw [List.mem_singleton] at hk
        subst hk
        show (syncEntity (invoiceOps env conn.id (lookupAfter env conn now remote db) now)
            remote.invoices (syncAll env conn now remote db).db.invoices).1.created = 0 ∧ _
        rw [ho1i, if_pos hi]
        simp only [hfeqi]
        have hr2 := syncEntity_round2
          (invoiceLaws env conn.id (lookupAfter env conn now remote db) now)
          remote.invoices.1 db.invoices hgood
        exact ⟨hr2.2.1, hr2.2.2.1⟩
      · rw [if_neg hi] at hk
        simp at hk
    · by_cases hq : conn.sync_quotes
      · rw [if_pos hq] at hk
        obtain ⟨herr, hgood⟩ := hquo hq
        have hfeqq : ∀ X, syncEntity
            (quoteOps env conn.id (lookupAfter env conn now remote db) now)
            remote.quotes X
            = syncEntity (quoteOps env conn.id (lookupAfter env conn now remote db) now)
                (remote.quotes.1, (none : Option ApiError)) X := by
          intro X
          rw [← herr]
        rw [List.mem_singleton] at hk
        subst hk
        show (syncEntity (quoteOps env conn.id (lookupAfter env conn now remote db) now)
            remote.quotes (syncAll env conn now remote db).db.quotes).1.created = 0 ∧ _
        rw [ho1q, if_pos hq]
        simp only [hfeqq]
        have hr2 := syncEntity_round2
          (quoteLaws env conn.id (lookupAfter env conn now remote db) now)
          remote.quotes.1 db.quotes hgood
        exact ⟨hr2.2.1, hr2.2.2.1⟩
      · rw [if_neg hq] at hk
        simp at hk
    · by_cases hs : conn.sync_subscriptions
      · rw [if_pos hs] at hk
        obtain ⟨herr, hgood⟩ := hsub hs
        have hfeqs : ∀ X, syncEntity
            (subscriptionOps env conn.id (lookupAfter env conn now remote db) now)
            remote.subscriptions X
            = syncEntity
                (subscriptionOps env conn.id (lookupAfter env conn now remote db) now)
                (remote.subscriptions.1, (none : Option ApiError)) X := by
          intro X
          rw [← herr]
        rw [List.mem_singleton] at hk
        subst hk
        show (syncEntity (subscriptionOps env conn.id (lookupAfter env conn now remote db) now)
            remote.subscriptions (syncAll env conn now remote db).db.subscriptions).1.created
              = 0 ∧ _
        rw [ho1s, if_pos hs]
        simp only [hfeqs]
        have hr2 := syncEntity_round2
          (subscriptionLaws env conn.id (lookupAfter env conn now remote db) now)
          remote.subscriptions.1 db.subscriptions hgood
        exact ⟨hr2.2.1, hr2.2.2.1⟩
      · rw [if_neg hs] at hk
        simp at hk

def c1conn : Connection := { id := 2, name := "t1" }

def c1remote : RemoteData :=
  { customers := ([{ id := some "c1", name := some "Acme" }], none)
    invoices := ([{ id := some "i1", invoice_number := some "INV-1",
                    customer := some { id := some "c1" } }], none)
    quotes := ([{ id := some "q1", quote_number := some "Q-1" }], none)
    subscriptions := ([{ id := some "s1", status := some "active" }], none) }

set_option maxRecDepth 8000 in
theorem c1_sync_idempotent_witness :
    (syncAll trivEnv (syncAll trivEnv c1conn 9 c1remote {}).conn 9 c1remote
        (syncAll trivEnv c1conn 9 c1remote {}).db).db
      = (syncAll trivEnv c1conn 9 c1remote {}).db ∧
    ∀ kr ∈ (syncAll trivEnv (syncAll trivEnv c1conn 9 c1remote {}).conn 9 c1remote
        (syncAll trivEnv c1conn 9 c1remote {}).db).results,
      kr.2.created = 0 ∧ kr.2.updated = kr.2.total_fetched :=
  c1_sync_idempotent trivEnv c1conn 9 c1remote {} (by decide)

end PennylaneSpec
